import Mathlib

/-!
GC debug cache (`drivers/misc/gcx/gccore/gcdebug.c`).

A shallow embedding of the diagnostic cache of the GC320 driver: the chip
identity cache, the status snapshot with its error latch, the blit
statistics and the `log/enable` write handler.  Global variables of the C
file become fields of explicit state records; register reads go through a
register file that records every read.
-/

namespace GcDebug

/-! ## Register file -/

/-- Register file seen through `gc_read_reg`.  `mem t a` is the word the bus
returns for address `a` when `t` reads have been performed before, so the
contents may change between any two reads; `log` holds the addresses read so
far, most recent first. -/
structure Hw where
  mem : Nat → Nat → Nat
  log : List Nat

/-- Modelled from the spec: `gc_read_reg` is defined outside this file; it is
the synchronous register read that always succeeds and returns an unsigned
32-bit word.  Each call is recorded in the log. -/
def gc_read_reg (hw : Hw) (addr : Nat) : Nat × Hw :=
  (hw.mem hw.log.length addr % 2 ^ 32, { hw with log := addr :: hw.log })

/-- Register addresses used by the file.  Their values come from a header
that is not part of the sources, so they are parameters. -/
structure RegAddr where
  GC_CHIP_ID_Address : Nat
  GC_CHIP_REV_Address : Nat
  GC_CHIP_DATE_Address : Nat
  GC_CHIP_TIME_Address : Nat
  GC_FEATURES_Address : Nat
  GC_MINOR_FEATURES0_Address : Nat
  GCREG_HI_IDLE_Address : Nat
  GCREG_FE_DEBUG_STATE_Address : Nat
  GCREG_FE_DEBUG_CUR_CMD_ADR_Address : Nat
  GCREG_FE_DEBUG_CMD_LOW_REG_Address : Nat
  GCREG_FE_DEBUG_CMD_HI_REG_Address : Nat
  GC_TOTAL_READS_Address : Nat
  GC_TOTAL_WRITES_Address : Nat
  GC_TOTAL_READ_BURSTS_Address : Nat
  GC_TOTAL_WRITE_BURSTS_Address : Nat
  GC_TOTAL_READ_REQS_Address : Nat
  GC_TOTAL_WRITE_REQS_Address : Nat
  GCREG_MMU_STATUS_Address : Nat
  GCREG_MMU_EXCEPTION_Address : Nat

/-- Number of MMU units (`#define MMU_UNITS 4`). -/
def MMU_UNITS : Nat := 4

/-- Test of the MMU error bit: `((irq_ack & 0x40000000) != 0)`. -/
def MMU_ERROR (irq_ack : Nat) : Bool := (irq_ack &&& 0x40000000) != 0

/-! ## Chip identity cache -/

/-- The cached chip identity (`struct gc_gpu_id`). -/
structure gc_gpu_id where
  valid : Bool
  chipModel : Nat
  chipRevision : Nat
  chipDate : Nat
  chipTime : Nat
  chipFeatures : Nat
  chipMinorFeatures : Nat
  deriving DecidableEq, Repr

/-- Zero-initialised static `g_gcGpuId`. -/
def gc_gpu_id.zero : gc_gpu_id :=
  { valid := false, chipModel := 0, chipRevision := 0, chipDate := 0,
    chipTime := 0, chipFeatures := 0, chipMinorFeatures := 0 }

/-! ## Status snapshot -/

/-- When a snapshot was taken (`enum gc_debug_when`). -/
inductive gc_debug_when where
  | GC_DEBUG_USER_REQUEST
  | GC_DEBUG_DRIVER_POWEROFF
  | GC_DEBUG_DRIVER_IRQ
  deriving DecidableEq, Repr

/-- Power modes of the device (`enum gcpower`), as switched over by
`gc_power_string`. -/
inductive gcpower where
  | GCPWR_UNKNOWN
  | GCPWR_OFF
  | GCPWR_ON
  | GCPWR_LOW
  deriving DecidableEq, Repr

/-- One status snapshot (`struct gc_gpu_status`). -/
structure gc_gpu_status where
  valid : Bool
  name : String
  when : gc_debug_when
  idle : Nat
  dma_state : Nat
  dma_addr : Nat
  dma_low_data : Nat
  dma_high_data : Nat
  total_reads : Nat
  total_writes : Nat
  total_read_bursts : Nat
  total_write_bursts : Nat
  total_read_reqs : Nat
  total_write_reqs : Nat
  irq_acknowledge : Nat
  mmu_status : Nat
  exception_address : List Nat
  deriving DecidableEq, Repr

/-- A statically initialised snapshot: only `.name` is given, the rest is
zero (the enum value zero is `GC_DEBUG_USER_REQUEST`). -/
def gc_gpu_status.named (name : String) : gc_gpu_status :=
  { valid := false, name := name,
    when := gc_debug_when.GC_DEBUG_USER_REQUEST,
    idle := 0, dma_state := 0, dma_addr := 0, dma_low_data := 0,
    dma_high_data := 0, total_reads := 0, total_writes := 0,
    total_read_bursts := 0, total_write_bursts := 0, total_read_reqs := 0,
    total_write_reqs := 0, irq_acknowledge := 0, mmu_status := 0,
    exception_address := List.replicate MMU_UNITS 0 }

/-- The globals of the status cache together with the chip identity and the
register file. -/
structure GcState where
  g_gcGpuId : gc_gpu_id
  g_gcGpuStatus : gc_gpu_status
  g_gcGpuStatusLastError : gc_gpu_status
  g_gcCacheStatusEveryIrq : Int
  hw : Hw

/-- State at module load: statics are zero, the two snapshots carry their
names. -/
def GcState.init (hw : Hw) : GcState :=
  { g_gcGpuId := gc_gpu_id.zero,
    g_gcGpuStatus := gc_gpu_status.named "GPU status",
    g_gcGpuStatusLastError := gc_gpu_status.named "GPU last error status",
    g_gcCacheStatusEveryIrq := 0,
    hw := hw }

/-- `gc_debug_cache_gpu_id`: read the six identity registers unless the cache
is already valid. -/
def gc_debug_cache_gpu_id (A : RegAddr) (s : GcState) : GcState :=
  if s.g_gcGpuId.valid then
    s
  else
    let (chipModel, hw) := gc_read_reg s.hw A.GC_CHIP_ID_Address
    let (chipRevision, hw) := gc_read_reg hw A.GC_CHIP_REV_Address
    let (chipDate, hw) := gc_read_reg hw A.GC_CHIP_DATE_Address
    let (chipTime, hw) := gc_read_reg hw A.GC_CHIP_TIME_Address
    let (chipFeatures, hw) := gc_read_reg hw A.GC_FEATURES_Address
    let (chipMinorFeatures, hw) := gc_read_reg hw A.GC_MINOR_FEATURES0_Address
    { s with
      g_gcGpuId :=
        { valid := true, chipModel := chipModel, chipRevision := chipRevision,
          chipDate := chipDate, chipTime := chipTime,
          chipFeatures := chipFeatures,
          chipMinorFeatures := chipMinorFeatures },
      hw := hw }

/-- The loop `for (i = 0; i < MMU_UNITS; i++) exception_address[i] =
gc_read_reg(GCREG_MMU_EXCEPTION_Address + i)`, started at index `i` with
`n` iterations left. -/
def read_exception_addresses (A : RegAddr) :
    Nat → Nat → List Nat → Hw → List Nat × Hw
  | 0, _, arr, hw => (arr, hw)
  | n + 1, i, arr, hw =>
    let (v, hw1) := gc_read_reg hw (A.GCREG_MMU_EXCEPTION_Address + i)
    read_exception_addresses A n (i + 1) (arr.set i v) hw1

/-- The loop `for (i = 0; i < MMU_UNITS; i++) exception_address[i] = 0`. -/
def clear_exception_addresses : Nat → Nat → List Nat → List Nat
  | 0, _, arr => arr
  | n + 1, i, arr => clear_exception_addresses n (i + 1) (arr.set i 0)

/-- The local `haveError` of `gc_debug_cache_gpu_status_internal`. -/
def haveError (when : gc_debug_when) (acknowledge : Nat) : Bool :=
  (when == gc_debug_when.GC_DEBUG_DRIVER_IRQ) &&
    ((acknowledge &&& 0xC0000000) != 0)

/-- `gc_debug_cache_gpu_status_internal`. -/
def gc_debug_cache_gpu_status_internal (A : RegAddr) (s : GcState)
    (when : gc_debug_when) (acknowledge : Nat) : GcState :=
  if (when == gc_debug_when.GC_DEBUG_DRIVER_IRQ) &&
      !(haveError when acknowledge) && (s.g_gcCacheStatusEveryIrq == 0) then
    s
  else
    let (idle, hw) := gc_read_reg s.hw A.GCREG_HI_IDLE_Address
    let (dma_state, hw) := gc_read_reg hw A.GCREG_FE_DEBUG_STATE_Address
    let (dma_addr, hw) := gc_read_reg hw A.GCREG_FE_DEBUG_CUR_CMD_ADR_Address
    let (dma_low_data, hw) :=
      gc_read_reg hw A.GCREG_FE_DEBUG_CMD_LOW_REG_Address
    let (dma_high_data, hw) :=
      gc_read_reg hw A.GCREG_FE_DEBUG_CMD_HI_REG_Address
    let (total_reads, hw) := gc_read_reg hw A.GC_TOTAL_READS_Address
    let (total_writes, hw) := gc_read_reg hw A.GC_TOTAL_WRITES_Address
    let (total_read_bursts, hw) :=
      gc_read_reg hw A.GC_TOTAL_READ_BURSTS_Address
    let (total_write_bursts, hw) :=
      gc_read_reg hw A.GC_TOTAL_WRITE_BURSTS_Address
    let (total_read_reqs, hw) := gc_read_reg hw A.GC_TOTAL_READ_REQS_Address
    let (total_write_reqs, hw) := gc_read_reg hw A.GC_TOTAL_WRITE_REQS_Address
    let st : gc_gpu_status :=
      { s.g_gcGpuStatus with
        when := when, idle := idle, dma_state := dma_state,
        dma_addr := dma_addr, dma_low_data := dma_low_data,
        dma_high_data := dma_high_data, total_reads := total_reads,
        total_writes := total_writes,
        total_read_bursts := total_read_bursts,
        total_write_bursts := total_write_bursts,
        total_read_reqs := total_read_reqs,
        total_write_reqs := total_write_reqs,
        irq_acknowledge := acknowledge }
    let (st, hw) :=
      if haveError when acknowledge && MMU_ERROR acknowledge then
        let (mmu_status, hw1) := gc_read_reg hw A.GCREG_MMU_STATUS_Address
        let (ea, hw2) :=
          read_exception_addresses A MMU_UNITS 0 st.exception_address hw1
        ({ st with mmu_status := mmu_status, exception_address := ea }, hw2)
      else
        ({ st with mmu_status := 0,
                   exception_address :=
                     clear_exception_addresses MMU_UNITS 0
                       st.exception_address }, hw)
    let st : gc_gpu_status := { st with valid := true }
    if haveError when acknowledge then
      { s with g_gcGpuStatus := st, g_gcGpuStatusLastError := st, hw := hw }
    else
      { s with g_gcGpuStatus := st, hw := hw }

/-- `gc_debug_cache_gpu_status_from_irq`. -/
def gc_debug_cache_gpu_status_from_irq (A : RegAddr) (s : GcState)
    (acknowledge : Nat) : GcState :=
  gc_debug_cache_gpu_status_internal A s gc_debug_when.GC_DEBUG_DRIVER_IRQ
    acknowledge

/-- Which global the `private` pointer of the seq_file designates:
`&g_gcGpuStatus` (endpoint `status`) or `&g_gcGpuStatusLastError` (endpoint
`last_error`). -/
inductive StatusRef where
  | current
  | lastError
  deriving DecidableEq, Repr

/-- Dereference of the `status` pointer. -/
def StatusRef.deref (r : StatusRef) (s : GcState) : gc_gpu_status :=
  match r with
  | StatusRef.current => s.g_gcGpuStatus
  | StatusRef.lastError => s.g_gcGpuStatusLastError

/-- `gc_power_string`. -/
def gc_power_string (power : gcpower) : String :=
  match power with
  | gcpower.GCPWR_UNKNOWN => "GCPWR_UNKNOWN"
  | gcpower.GCPWR_OFF => "GCPWR_OFF"
  | gcpower.GCPWR_ON => "GCPWR_ON"
  | gcpower.GCPWR_LOW => "GCPWR_LOW"

/-- `gc_when_string`. -/
def gc_when_string (when : gc_debug_when) : String :=
  match when with
  | gc_debug_when.GC_DEBUG_USER_REQUEST => "GC_DEBUG_USER_REQUEST"
  | gc_debug_when.GC_DEBUG_DRIVER_POWEROFF => "GC_DEBUG_DRIVER_POWEROFF"
  | gc_debug_when.GC_DEBUG_DRIVER_IRQ => "GC_DEBUG_DRIVER_IRQ"

/-- One `seq_printf` of `gc_debug_show_gpu_status`, with its arguments. -/
inductive StatusLine where
  | power (powerString : String)
  | notValid (name : String)
  | cachedAt (name : String) (when : String)
  | field (label : String) (value : Nat)
  | exceptionAddress (i : Nat) (value : Nat)
  deriving DecidableEq, Repr

/-- The loop printing `exception address %d = 0x%08X`. -/
def show_exception_addresses (arr : List Nat) : Nat → Nat → List StatusLine
  | 0, _ => []
  | n + 1, i =>
    StatusLine.exceptionAddress i (arr.getD i 0) ::
      show_exception_addresses arr n (i + 1)

/-- `gc_debug_show_gpu_status`.  `power` is what `gc_get_power()` returns
and `status` is the `private` pointer, `none` for a null pointer. -/
def gc_debug_show_gpu_status (A : RegAddr) (power : gcpower) (s : GcState)
    (status : Option StatusRef) : List StatusLine × GcState :=
  let powerString := gc_power_string power
  match status with
  | none => ([], s)
  | some ref =>
    let out := [StatusLine.power powerString]
    let s1 :=
      if power == gcpower.GCPWR_ON then
        gc_debug_cache_gpu_status_internal A s
          gc_debug_when.GC_DEBUG_USER_REQUEST 0
      else s
    let st := ref.deref s1
    if !st.valid then
      (out ++ [StatusLine.notValid st.name], s1)
    else
      let out := out ++
        [StatusLine.cachedAt st.name (gc_when_string st.when),
         StatusLine.field "idle" st.idle,
         StatusLine.field "DMA state" st.dma_state,
         StatusLine.field "DMA address" st.dma_addr,
         StatusLine.field "DMA low data" st.dma_low_data,
         StatusLine.field "DMA high data" st.dma_high_data,
         StatusLine.field "Total memory reads" st.total_reads,
         StatusLine.field "Total memory writes" st.total_writes,
         StatusLine.field "Total memory read 64-bit bursts"
           st.total_read_bursts,
         StatusLine.field "Total memory write 64-bit bursts"
           st.total_write_bursts,
         StatusLine.field "Total memory read requests" st.total_read_reqs,
         StatusLine.field "Total memory write requests" st.total_write_reqs,
         StatusLine.field "irq acknowledge" st.irq_acknowledge]
      if MMU_ERROR st.irq_acknowledge then
        (out ++ StatusLine.field "mmu status" st.mmu_status ::
           show_exception_addresses st.exception_address MMU_UNITS 0, s1)
      else
        (out, s1)

/-- `gc_debug_open_gpu_status` followed by the read: the `status` endpoint. -/
def gc_debug_open_gpu_status (A : RegAddr) (power : gcpower) (s : GcState) :
    List StatusLine × GcState :=
  gc_debug_show_gpu_status A power s (some StatusRef.current)

/-- `gc_debug_open_gpu_last_error` followed by the read: the `last_error`
endpoint. -/
def gc_debug_open_gpu_last_error (A : RegAddr) (power : gcpower)
    (s : GcState) : List StatusLine × GcState :=
  gc_debug_show_gpu_status A power s (some StatusRef.lastError)

/-! ## Blit statistics -/

/-- Largest supported number of sources (`#define MAX_BLT_SOURCES 8`). -/
def MAX_BLT_SOURCES : Nat := 8

/-- Value of a C `int` after wrap-around (the kernel is built with wrapping
signed arithmetic). -/
def wrap32 (x : Int) : Int := (x + 2 ^ 31) % 2 ^ 32 - 2 ^ 31

/-- Value of a C `long long` after wrap-around. -/
def wrap64 (x : Int) : Int := (x + 2 ^ 63) % 2 ^ 64 - 2 ^ 63

/-- The statistics (`struct gc_blt_status`): `totalCount` and the entries of
`srcCount` are `int`, `totalPixels` and the entries of `srcCountPixels` are
`long long`.  The arrays have `MAX_BLT_SOURCES + 1` entries, indices 0..8. -/
structure gc_blt_status where
  totalCount : Int
  totalPixels : Int
  srcCount : Nat → Int
  srcCountPixels : Nat → Int

/-- Zero-initialised static `g_gcBltStats`. -/
def gc_blt_status.zero : gc_blt_status :=
  { totalCount := 0, totalPixels := 0,
    srcCount := fun _ => 0, srcCountPixels := fun _ => 0 }

/-- `gc_debug_blt`.  A negative `srccount` passes the guard and indexes the
arrays before their start, which is undefined: the result is `none`. -/
def gc_debug_blt (st : gc_blt_status) (srccount dstWidth dstHeight : Int) :
    Option gc_blt_status :=
  if srccount > MAX_BLT_SOURCES then
    some st
  else if srccount < 0 then
    none
  else
    let pixels : Int := wrap32 (dstWidth * dstHeight)
    let k : Nat := srccount.toNat
    some
      { totalCount := wrap32 (st.totalCount + 1),
        totalPixels := wrap64 (st.totalPixels + pixels),
        srcCount := fun j =>
          if j = k then wrap32 (st.srcCount k + 1) else st.srcCount j,
        srcCountPixels := fun j =>
          if j = k then wrap64 (st.srcCountPixels k + pixels)
          else st.srcCountPixels j }

/-- The loop of `gc_debug_reset_blt_stats`, at index `i` with `n` iterations
left. -/
def reset_loop : Nat → Nat → (Nat → Int) × (Nat → Int) →
    (Nat → Int) × (Nat → Int)
  | 0, _, arrs => arrs
  | n + 1, i, (sc, sp) =>
    reset_loop n (i + 1)
      (fun j => if j = i then 0 else sc j, fun j => if j = i then 0 else sp j)

/-- `gc_debug_reset_blt_stats`: the loop runs over `i = 1 .. MAX_BLT_SOURCES`. -/
def gc_debug_reset_blt_stats (st : gc_blt_status) : gc_blt_status :=
  let arrs := reset_loop MAX_BLT_SOURCES 1 (st.srcCount, st.srcCountPixels)
  { totalCount := 0, totalPixels := 0,
    srcCount := arrs.1, srcCountPixels := arrs.2 }

/-- One `seq_printf` of `gc_debug_show_blt_stats`, with its arguments. -/
inductive BltLine where
  | totalBlts (n : Int)
  | srcCount (i : Nat) (count : Int) (percent : Int)
  | totalDstPixels (n : Int)
  | srcPixels (i : Nat) (count : Int) (percent : Int)
  deriving DecidableEq, Repr

/-- Least value of a C `int`. -/
def INT_MIN : Int := -2147483648

/-- Least value of a C `long long`. -/
def LLONG_MIN : Int := -9223372036854775808

/-- C division of `a` by `b` in a signed type whose least value is `min`: it
truncates toward zero and is undefined (`none`) for a zero divisor and for
`min / -1`, whose quotient does not fit the type. -/
def c_div (min : Int) (a b : Int) : Option Int :=
  if b = 0 ∨ (a = min ∧ b = -1) then none else some (Int.tdiv a b)

/-- The first loop of `gc_debug_show_blt_stats` (lines of the form
`" %d src: %d (%d%%)"`), at index `i` with `n` iterations left. -/
def show_count_loop (st : gc_blt_status) : Nat → Nat → Option (List BltLine)
  | 0, _ => some []
  | n + 1, i =>
    let count : Int := st.srcCount i
    let total : Int := wrap32 st.totalPixels
    match c_div INT_MIN (wrap32 (count * 100)) total with
    | none => none
    | some pct =>
      match show_count_loop st n (i + 1) with
      | none => none
      | some rest => some (BltLine.srcCount i count pct :: rest)

/-- The second loop of `gc_debug_show_blt_stats` (lines of the form
`" %d src: %lld (%lld%%)"`, using `div64_s64`), at index `i` with `n`
iterations left. -/
def show_pixel_loop (st : gc_blt_status) : Nat → Nat → Option (List BltLine)
  | 0, _ => some []
  | n + 1, i =>
    let count : Int := st.srcCountPixels i
    let total : Int := st.totalPixels
    match c_div LLONG_MIN (wrap64 (count * 100)) total with
    | none => none
    | some pct =>
      match show_pixel_loop st n (i + 1) with
      | none => none
      | some rest => some (BltLine.srcPixels i count pct :: rest)

/-- `gc_debug_show_blt_stats`: the report and the statistics after the
final reset; `none` when an undefined division is executed (a zero divisor,
or the least value divided by -1). -/
def gc_debug_show_blt_stats (st : gc_blt_status) :
    Option (List BltLine × gc_blt_status) :=
  let out1 := [BltLine.totalBlts st.totalCount]
  let counts :=
    if st.totalCount ≠ 0 then show_count_loop st MAX_BLT_SOURCES 1
    else some []
  match counts with
  | none => none
  | some l1 =>
    let out2 := out1 ++ l1 ++ [BltLine.totalDstPixels st.totalPixels]
    let pixels :=
      if st.totalPixels ≠ 0 then show_pixel_loop st MAX_BLT_SOURCES 1
      else some []
    match pixels with
    | none => none
    | some l2 => some (out2 ++ l2, gc_debug_reset_blt_stats st)

/-- The divisors of the percentage divisions that `gc_debug_show_blt_stats`
executes on `st`, in execution order: `(int) totalPixels` eight times when
`totalCount` is nonzero, then `totalPixels` eight times when it is
nonzero. -/
def show_blt_divisors (st : gc_blt_status) : List Int :=
  (if st.totalCount ≠ 0 then
      List.replicate MAX_BLT_SOURCES (wrap32 st.totalPixels)
    else []) ++
  (if st.totalPixels ≠ 0 then List.replicate MAX_BLT_SOURCES st.totalPixels
    else [])

/-- The division of the count loop for bucket `i` is defined: the divisor
`(int) totalPixels` is nonzero and the division is not `INT_MIN / -1`. -/
def count_division_defined (st : gc_blt_status) (i : Nat) : Prop :=
  wrap32 st.totalPixels ≠ 0 ∧
    ¬ (wrap32 (st.srcCount i * 100) = INT_MIN ∧ wrap32 st.totalPixels = -1)

/-- The division of the pixel loop for bucket `i` is defined: the divisor
`totalPixels` is nonzero and the division is not `LLONG_MIN / -1`. -/
def pixel_division_defined (st : gc_blt_status) (i : Nat) : Prop :=
  st.totalPixels ≠ 0 ∧
    ¬ (wrap64 (st.srcCountPixels i * 100) = LLONG_MIN ∧ st.totalPixels = -1)

/-- Every division that `gc_debug_show_blt_stats` executes on `st` is
defined: those of the count loop when `totalCount` is nonzero, those of the
pixel loop when `totalPixels` is nonzero. -/
def drain_defined (st : gc_blt_status) : Prop :=
  (st.totalCount ≠ 0 →
      ∀ i ∈ List.range' 1 MAX_BLT_SOURCES, count_division_defined st i) ∧
    (st.totalPixels ≠ 0 →
      ∀ i ∈ List.range' 1 MAX_BLT_SOURCES, pixel_division_defined st i)

/-- The lines of the count loop when its divisions are defined. -/
def count_lines (st : gc_blt_status) (i n : Nat) : List BltLine :=
  (List.range' i n).map (fun j =>
    BltLine.srcCount j (st.srcCount j)
      (Int.tdiv (wrap32 (st.srcCount j * 100)) (wrap32 st.totalPixels)))

/-- The lines of the pixel loop when its divisions are defined. -/
def pixel_lines (st : gc_blt_status) (i n : Nat) : List BltLine :=
  (List.range' i n).map (fun j =>
    BltLine.srcPixels j (st.srcCountPixels j)
      (Int.tdiv (wrap64 (st.srcCountPixels j * 100)) st.totalPixels))

/-- A call `gc_debug_blt(srccount, dstWidth, dstHeight)`. -/
structure BltCall where
  srccount : Int
  dstWidth : Int
  dstHeight : Int
  deriving DecidableEq, Repr

/-- A sequence of `gc_debug_blt` calls, left to right. -/
def run_blt : gc_blt_status → List BltCall → Option gc_blt_status
  | st, [] => some st
  | st, c :: cs =>
    match gc_debug_blt st c.srccount c.dstWidth c.dstHeight with
    | none => none
    | some st1 => run_blt st1 cs

/-- Sum of `srcCount[1..8]` as a mathematical integer. -/
def sum_srcCount (st : gc_blt_status) : Int :=
  st.srcCount 1 + st.srcCount 2 + st.srcCount 3 + st.srcCount 4 +
    st.srcCount 5 + st.srcCount 6 + st.srcCount 7 + st.srcCount 8

/-- Sum of `srcCountPixels[1..8]` as a mathematical integer. -/
def sum_srcCountPixels (st : gc_blt_status) : Int :=
  st.srcCountPixels 1 + st.srcCountPixels 2 + st.srcCountPixels 3 +
    st.srcCountPixels 4 + st.srcCountPixels 5 + st.srcCountPixels 6 +
    st.srcCountPixels 7 + st.srcCountPixels 8

/-! ## The `log/enable` write handler -/

/-- Entry points of the logger reached through the `GCDBG_*` macros. -/
inductive LogCall where
  | GCDBG_ENABLEDUMP
  | GCDBG_DISABLEDUMP
  | GCDBG_SETFILTER (name : List Nat) (val : Nat)
  deriving DecidableEq, Repr

/-- Error numbers returned negated by the handler. -/
def EFAULT : Int := 14

/-- Invalid argument. -/
def EINVAL : Int := 22

/-- The C string starting at the head of `p`: the bytes before the first
NUL. -/
def cstr (p : List Nat) : List Nat := p.takeWhile (fun b => b != 0)

/-- Outcome of the search loop of `gc_debug_write_log_enable`. -/
inductive ScanResult where
  | notFound
  | badValue
  | found (name : List Nat) (val : Nat)
  deriving DecidableEq, Repr

/-- The loop `for (i = 0; i < len - 1; i++)` of `gc_debug_write_log_enable`,
at index `i` with `n` iterations left: at the first space it terminates the
name in place, parses what follows and stops. -/
def scan_space (kstrtoul : List Nat → Option Nat) (buf : List Nat) :
    Nat → Nat → ScanResult
  | 0, _ => ScanResult.notFound
  | n + 1, i =>
    if buf.getD i 0 == 32 then
      let buf1 := buf.set i 0
      match kstrtoul (cstr (buf1.drop (i + 1))) with
      | none => ScanResult.badValue
      | some val => ScanResult.found (cstr buf1) val
    else
      scan_space kstrtoul buf n (i + 1)

/-- `gc_debug_write_log_enable`.  `kstrtoul` is the kernel parser (base 0),
applied to a C string and returning the value or failing; `user_buf` holds
the bytes readable at the user pointer and `count` is the length of the
write.  The result is the return value and the logger calls made, or `none`
where the code reads the uninitialised part of `buf` (a write of zero bytes
that does not parse: `len - 1` wraps around). -/
def gc_debug_write_log_enable (kstrtoul : List Nat → Option Nat)
    (user_buf : List Nat) (count : Nat) : Option (Int × List LogCall) :=
  let len := min count (128 - 1)
  if user_buf.length < len then
    some (-EFAULT, [])
  else
    let buf := user_buf.take len ++ [0]
    match kstrtoul (cstr buf) with
    | some val =>
      if val ≠ 0 then some ((count : Int), [LogCall.GCDBG_ENABLEDUMP])
      else some ((count : Int), [LogCall.GCDBG_DISABLEDUMP])
    | none =>
      if len = 0 then
        none
      else
        match scan_space kstrtoul buf (len - 1) 0 with
        | ScanResult.badValue => some (-EINVAL, [])
        | ScanResult.notFound => some (-EINVAL, [])
        | ScanResult.found name val =>
          some ((count : Int), [LogCall.GCDBG_SETFILTER name val])

/-- Modelled from the spec: `kstrtoul` is a kernel library routine that is
not among the sources; the spec only speaks of a text that "parses as an
integer", a bare non-negative integer.  This parser accepts a non-empty run
of decimal digits and is used to evaluate the handler on concrete lines. -/
def kstrtoul_dec (s : List Nat) : Option Nat :=
  if s = [] then none
  else
    s.foldl
      (fun acc c =>
        match acc with
        | none => none
        | some v => if 48 ≤ c ∧ c ≤ 57 then some (10 * v + (c - 48)) else none)
      (some 0)

/-- Text before the first space of a line. -/
def before_space (line : List Nat) : List Nat :=
  line.takeWhile (fun b => b != 32)

/-- Text after the first space of a line (empty when there is no space). -/
def after_space (line : List Nat) : List Nat :=
  (line.dropWhile (fun b => b != 32)).drop 1

/-! ## Sequences of captures and sample inputs -/

/-- A capture request: the value last written to `cache_status_every_irq`
before the call, and the two arguments of the call. -/
structure CaptureCall where
  every_irq : Int
  when : gc_debug_when
  acknowledge : Nat

/-- One capture, made with the flag as set for it. -/
def capture_step (A : RegAddr) (s : GcState) (c : CaptureCall) : GcState :=
  gc_debug_cache_gpu_status_internal A
    { s with g_gcCacheStatusEveryIrq := c.every_irq } c.when c.acknowledge

/-- A sequence of captures, left to right. -/
def run_capture (A : RegAddr) (s : GcState) (cs : List CaptureCall) :
    GcState :=
  cs.foldl (capture_step A) s

/-- A sample assignment of pairwise distinct register addresses, for
evaluating the functions on concrete inputs. -/
def RegAddr.sample : RegAddr :=
  { GC_CHIP_ID_Address := 32, GC_CHIP_REV_Address := 36,
    GC_CHIP_DATE_Address := 40, GC_CHIP_TIME_Address := 44,
    GC_FEATURES_Address := 28, GC_MINOR_FEATURES0_Address := 52,
    GCREG_HI_IDLE_Address := 4, GCREG_FE_DEBUG_STATE_Address := 1632,
    GCREG_FE_DEBUG_CUR_CMD_ADR_Address := 1636,
    GCREG_FE_DEBUG_CMD_LOW_REG_Address := 1640,
    GCREG_FE_DEBUG_CMD_HI_REG_Address := 1644,
    GC_TOTAL_READS_Address := 64, GC_TOTAL_WRITES_Address := 68,
    GC_TOTAL_READ_BURSTS_Address := 72, GC_TOTAL_WRITE_BURSTS_Address := 76,
    GC_TOTAL_READ_REQS_Address := 80, GC_TOTAL_WRITE_REQS_Address := 84,
    GCREG_MMU_STATUS_Address := 392, GCREG_MMU_EXCEPTION_Address := 400 }

/-- A sample register file whose contents change with every read: read
number `t` of address `a` returns `a + t + 1`. -/
def Hw.sample : Hw := { mem := fun t a => a + t + 1, log := [] }

/-- Replace the contents of the register file, keeping the read log. -/
def GcState.with_mem (s : GcState) (mem : Nat → Nat → Nat) : GcState :=
  { s with hw := { s.hw with mem := mem } }


/-- What the MMU law needs of a state: the exception array has its four
entries, and they and `mmu_status` are zero unless the stored acknowledge
word has bit 30 set. -/
def mmu_inv (s : GcState) : Prop :=
  s.g_gcGpuStatus.exception_address.length = 4 ∧
    (s.g_gcGpuStatus.irq_acknowledge &&& 0x40000000 = 0 →
      s.g_gcGpuStatus.mmu_status = 0 ∧
        s.g_gcGpuStatus.exception_address = [0, 0, 0, 0])

/-- Exact form of the statistics invariant after `n` recorded calls: the
counters hold `n` and the sums without wrap-around, every bucket count is
non-negative, and every bucket's pixel sum is bounded by its count times
`2^31`. -/
def blt_inv_exact (n : Int) (st : gc_blt_status) : Prop :=
  st.totalCount = n ∧ sum_srcCount st = n ∧
    sum_srcCountPixels st = st.totalPixels ∧
    ∀ i : Nat, 0 ≤ st.srcCount i ∧
      -(st.srcCount i * 2147483648) ≤ st.srcCountPixels i ∧
      st.srcCountPixels i ≤ st.srcCount i * 2147483648

/-- Wrapped form of the statistics invariant: the sums agree with the totals
modulo the width of the counters. -/
def blt_inv_mod (st : gc_blt_status) : Prop :=
  wrap32 (sum_srcCount st) = st.totalCount ∧
    wrap64 (sum_srcCountPixels st) = st.totalPixels

/-! ## Chip identity report and the endpoints as events -/

/-- One `seq_printf` of `gc_debug_show_gpu_id`: the message of an invalid
cache, or a line `key=value` with the value in hexadecimal. -/
inductive IdLine where
  | notValid
  | field (key : String) (value : Nat)
  deriving DecidableEq, Repr

/-- `gc_debug_show_gpu_id`. -/
def gc_debug_show_gpu_id (s : GcState) : List IdLine :=
  if !s.g_gcGpuId.valid then
    [IdLine.notValid]
  else
    [IdLine.field "model" s.g_gcGpuId.chipModel,
     IdLine.field "revision" s.g_gcGpuId.chipRevision,
     IdLine.field "date" s.g_gcGpuId.chipDate,
     IdLine.field "time" s.g_gcGpuId.chipTime,
     IdLine.field "chipFeatures" s.g_gcGpuId.chipFeatures]

/-- `gc_debug_poweroff_cache`. -/
def gc_debug_poweroff_cache (A : RegAddr) (s : GcState) : GcState :=
  gc_debug_cache_gpu_id A s

/-- What can happen to the status cache: a capture, a write to
`cache_status_every_irq`, a read of one of the endpoints `status`,
`last_error` and `id` under some power state, and the identity capture
before power-off. -/
inductive GcEvent where
  | capture (when : gc_debug_when) (acknowledge : Nat)
  | irq (acknowledge : Nat)
  | set_every_irq (value : Int)
  | read_status (power : gcpower)
  | read_last_error (power : gcpower)
  | read_id
  | poweroff_cache

/-- Effect of one event on the state. -/
def gc_event_step (A : RegAddr) (s : GcState) (e : GcEvent) : GcState :=
  match e with
  | GcEvent.capture when acknowledge =>
    gc_debug_cache_gpu_status_internal A s when acknowledge
  | GcEvent.irq acknowledge =>
    gc_debug_cache_gpu_status_from_irq A s acknowledge
  | GcEvent.set_every_irq value => { s with g_gcCacheStatusEveryIrq := value }
  | GcEvent.read_status power => (gc_debug_open_gpu_status A power s).2
  | GcEvent.read_last_error power =>
    (gc_debug_open_gpu_last_error A power s).2
  | GcEvent.read_id => s
  | GcEvent.poweroff_cache => gc_debug_poweroff_cache A s

/-- A sequence of events, left to right. -/
def gc_event_run (A : RegAddr) (s : GcState) (es : List GcEvent) : GcState :=
  es.foldl (gc_event_step A) s

/-- The latch, when valid, holds a snapshot taken at an interrupt whose
acknowledge word has bit 31 or bit 30 set. -/
def latch_inv (s : GcState) : Prop :=
  s.g_gcGpuStatusLastError.valid = true →
    s.g_gcGpuStatusLastError.when = gc_debug_when.GC_DEBUG_DRIVER_IRQ ∧
      s.g_gcGpuStatusLastError.irq_acknowledge &&& 0xC0000000 ≠ 0

/-! # Theorems -/

/-! ## Status snapshot: latch, throttle and MMU laws -/

theorem internal_latch_of_error (A : RegAddr) (s : GcState)
    (w : gc_debug_when) (a : Nat) (h : haveError w a = true) :
    (gc_debug_cache_gpu_status_internal A s w a).g_gcGpuStatusLastError =
      (gc_debug_cache_gpu_status_internal A s w a).g_gcGpuStatus := by
  unfold gc_debug_cache_gpu_status_internal
  simp only [h]
  simp

theorem internal_latch_of_no_error (A : RegAddr) (s : GcState)
    (w : gc_debug_when) (a : Nat) (h : haveError w a = false) :
    (gc_debug_cache_gpu_status_internal A s w a).g_gcGpuStatusLastError =
      s.g_gcGpuStatusLastError := by
  unfold gc_debug_cache_gpu_status_internal
  simp only [h]
  split <;> simp

theorem run_capture_append (A : RegAddr) (s : GcState)
    (xs ys : List CaptureCall) :
    run_capture A s (xs ++ ys) = run_capture A (run_capture A s xs) ys := by
  simp [run_capture, List.foldl_append]

theorem run_capture_latch_of_no_error (A : RegAddr) :
    ∀ (post : List CaptureCall) (s : GcState),
      (∀ d ∈ post, haveError d.when d.acknowledge = false) →
      (run_capture A s post).g_gcGpuStatusLastError =
        s.g_gcGpuStatusLastError := by
  intro post
  induction post with
  | nil => intro s _; rfl
  | cons d ds ih =>
    intro s h
    have hd : haveError d.when d.acknowledge = false :=
      h d (List.mem_cons_self _ _)
    have hds : ∀ e ∈ ds, haveError e.when e.acknowledge = false :=
      fun e he => h e (List.mem_cons_of_mem _ he)
    show (run_capture A (capture_step A s d) ds).g_gcGpuStatusLastError = _
    rw [ih _ hds]
    exact internal_latch_of_no_error A _ _ _ hd

/-- C1 (latch law): in a sequence of captures, after the last capture that
has an error the latch equals the current snapshot as that capture left it,
whatever non-error captures follow; and a capture without error leaves the
latch as it was. -/
theorem latch_law (A : RegAddr) (s : GcState) (pre post : List CaptureCall)
    (c : CaptureCall) (hc : haveError c.when c.acknowledge = true)
    (hpost : ∀ d ∈ post, haveError d.when d.acknowledge = false) :
    (run_capture A s (pre ++ c :: post)).g_gcGpuStatusLastError =
        (run_capture A s (pre ++ [c])).g_gcGpuStatus ∧
      ∀ (t : GcState) (d : CaptureCall),
        haveError d.when d.acknowledge = false →
        (capture_step A t d).g_gcGpuStatusLastError =
          t.g_gcGpuStatusLastError := by
  refine ⟨?_, fun t d hd => internal_latch_of_no_error A _ _ _ hd⟩
  have e1 : pre ++ c :: post = (pre ++ [c]) ++ post := by simp
  rw [e1, run_capture_append, run_capture_latch_of_no_error A post _ hpost,
    run_capture_append]
  exact internal_latch_of_error A _ _ _ hc

/-- Witness of `latch_law`: a user request, then an interrupt with bit 31
set, then an interrupt without error bits taken with the flag on. -/
theorem latch_law_witness :
    haveError gc_debug_when.GC_DEBUG_DRIVER_IRQ 0x80000000 = true ∧
      (run_capture RegAddr.sample (GcState.init Hw.sample)
          ([⟨0, gc_debug_when.GC_DEBUG_USER_REQUEST, 0⟩] ++
            ⟨0, gc_debug_when.GC_DEBUG_DRIVER_IRQ, 0x80000000⟩ ::
              [⟨1, gc_debug_when.GC_DEBUG_DRIVER_IRQ, 1⟩])).g_gcGpuStatusLastError =
        (run_capture RegAddr.sample (GcState.init Hw.sample)
          ([⟨0, gc_debug_when.GC_DEBUG_USER_REQUEST, 0⟩] ++
            [⟨0, gc_debug_when.GC_DEBUG_DRIVER_IRQ, 0x80000000⟩])).g_gcGpuStatus :=
  ⟨by decide,
    (latch_law RegAddr.sample (GcState.init Hw.sample)
      [⟨0, gc_debug_when.GC_DEBUG_USER_REQUEST, 0⟩]
      [⟨1, gc_debug_when.GC_DEBUG_DRIVER_IRQ, 1⟩]
      ⟨0, gc_debug_when.GC_DEBUG_DRIVER_IRQ, 0x80000000⟩ (by decide)
      (by
        intro d hd
        simp only [List.mem_singleton] at hd
        subst hd
        decide)).1⟩

/-- C2 (throttle law): an interrupt capture whose acknowledge word has
bits 31 and 30 clear, made while the flag is off, returns the state as it
was: no register is read and both snapshots are untouched. -/
theorem throttle_law (A : RegAddr) (s : GcState) (acknowledge : Nat)
    (hack : acknowledge &&& 0xC0000000 = 0)
    (hflag : s.g_gcCacheStatusEveryIrq = 0) :
    gc_debug_cache_gpu_status_from_irq A s acknowledge = s ∧
      gc_debug_cache_gpu_status_internal A s
        gc_debug_when.GC_DEBUG_DRIVER_IRQ acknowledge = s ∧
      (gc_debug_cache_gpu_status_from_irq A s acknowledge).hw.log =
        s.hw.log ∧
      (gc_debug_cache_gpu_status_from_irq A s acknowledge).g_gcGpuStatus =
        s.g_gcGpuStatus ∧
      (gc_debug_cache_gpu_status_from_irq A s
          acknowledge).g_gcGpuStatusLastError =
        s.g_gcGpuStatusLastError := by
  have h : gc_debug_cache_gpu_status_internal A s
      gc_debug_when.GC_DEBUG_DRIVER_IRQ acknowledge = s := by
    unfold gc_debug_cache_gpu_status_internal
    simp [haveError, hack, hflag]
  simp [gc_debug_cache_gpu_status_from_irq, h]

/-- Witness of `throttle_law`: an interrupt with acknowledge word 1 in the
initial state. -/
theorem throttle_law_witness :
    (1 : Nat) &&& 0xC0000000 = 0 ∧
      (GcState.init Hw.sample).g_gcCacheStatusEveryIrq = 0 ∧
      (gc_debug_cache_gpu_status_from_irq RegAddr.sample
          (GcState.init Hw.sample) 1).hw.log = [] :=
  ⟨by decide, rfl,
    (throttle_law RegAddr.sample (GcState.init Hw.sample) 1 (by decide)
      rfl).2.2.1⟩

theorem clear_exception_addresses_four (arr : List Nat)
    (h : arr.length = 4) :
    clear_exception_addresses MMU_UNITS 0 arr = [0, 0, 0, 0] := by
  match arr, h with
  | [a, b, c, d], _ => rfl

theorem read_exception_addresses_length (A : RegAddr) :
    ∀ (n i : Nat) (arr : List Nat) (hw : Hw),
      (read_exception_addresses A n i arr hw).1.length = arr.length := by
  intro n
  induction n with
  | zero => intro i arr hw; rfl
  | succ n ih =>
    intro i arr hw
    simp only [read_exception_addresses]
    rw [ih]
    simp

theorem mmu_inv_init (hw : Hw) : mmu_inv (GcState.init hw) := by
  refine ⟨rfl, fun _ => ⟨rfl, rfl⟩⟩

theorem mmu_inv_internal (A : RegAddr) (s : GcState) (w : gc_debug_when)
    (a : Nat) (h : mmu_inv s) :
    mmu_inv (gc_debug_cache_gpu_status_internal A s w a) := by
  obtain ⟨hlen, hz⟩ := h
  unfold gc_debug_cache_gpu_status_internal
  split
  · exact ⟨hlen, hz⟩
  · by_cases hm : (haveError w a && MMU_ERROR a) = true
    · have hbit : ¬ (a &&& 0x40000000 = 0) := by
        have : MMU_ERROR a = true := by
          simp only [Bool.and_eq_true] at hm
          exact hm.2
        simpa [MMU_ERROR] using this
      simp only [hm]
      split <;>
        exact ⟨by simp [read_exception_addresses_length, hlen],
          fun h0 => absurd h0 hbit⟩
    · simp only [hm]
      have hc := clear_exception_addresses_four
        s.g_gcGpuStatus.exception_address hlen
      split <;> simp [mmu_inv, hc]

theorem mmu_inv_run (A : RegAddr) :
    ∀ (cs : List CaptureCall) (s : GcState), mmu_inv s →
      mmu_inv (run_capture A s cs) := by
  intro cs
  induction cs with
  | nil => intro s h; exact h
  | cons c cs ih =>
    intro s h
    exact ih _ (mmu_inv_internal A _ _ _ h)

/-- C3 (MMU conditional law): in every state reached from the initial state
by captures with any trigger, acknowledge word, flag value and register
contents, a current snapshot whose stored acknowledge word has bit 30 clear
has `mmu_status` zero and all four exception addresses zero. -/
theorem mmu_conditional_law (A : RegAddr) (hw : Hw) (cs : List CaptureCall)
    (h : (run_capture A (GcState.init hw) cs).g_gcGpuStatus.irq_acknowledge
      &&& 0x40000000 = 0) :
    (run_capture A (GcState.init hw) cs).g_gcGpuStatus.mmu_status = 0 ∧
      (run_capture A (GcState.init hw) cs).g_gcGpuStatus.exception_address =
        [0, 0, 0, 0] :=
  (mmu_inv_run A cs _ (mmu_inv_init hw)).2 h

/-- Witness of `mmu_conditional_law`: an MMU fault interrupt followed by an
interrupt that reports a bus error only (bit 31). -/
theorem mmu_conditional_law_witness :
    (run_capture RegAddr.sample (GcState.init Hw.sample)
        [⟨0, gc_debug_when.GC_DEBUG_DRIVER_IRQ, 0x40000000⟩,
         ⟨0, gc_debug_when.GC_DEBUG_DRIVER_IRQ, 0x80000000⟩]).g_gcGpuStatus.irq_acknowledge
        &&& 0x40000000 = 0 ∧
      (run_capture RegAddr.sample (GcState.init Hw.sample)
        [⟨0, gc_debug_when.GC_DEBUG_DRIVER_IRQ, 0x40000000⟩,
         ⟨0, gc_debug_when.GC_DEBUG_DRIVER_IRQ, 0x80000000⟩]).g_gcGpuStatus.mmu_status
        = 0 :=
  ⟨by decide,
    (mmu_conditional_law RegAddr.sample Hw.sample
      [⟨0, gc_debug_when.GC_DEBUG_DRIVER_IRQ, 0x40000000⟩,
       ⟨0, gc_debug_when.GC_DEBUG_DRIVER_IRQ, 0x80000000⟩] (by decide)).1⟩

/-! ## Chip identity cache -/

theorem gc_debug_cache_gpu_id_valid (A : RegAddr) (s : GcState) :
    (gc_debug_cache_gpu_id A s).g_gcGpuId.valid = true := by
  unfold gc_debug_cache_gpu_id
  split
  · assumption
  · rfl

theorem gc_debug_cache_gpu_id_of_valid (A : RegAddr) (t : GcState)
    (h : t.g_gcGpuId.valid = true) : gc_debug_cache_gpu_id A t = t := by
  unfold gc_debug_cache_gpu_id
  simp [h]

/-- C4 (chip identity idempotence): a second `gc_debug_cache_gpu_id`, made
after the register contents were replaced by arbitrary ones, leaves the
identity of the first call as it is and reads no register; and on a state
whose identity is valid the call changes nothing at all. -/
theorem chip_identity_idempotent (A : RegAddr) (s : GcState)
    (mem : Nat → Nat → Nat) :
    (gc_debug_cache_gpu_id A
        ((gc_debug_cache_gpu_id A s).with_mem mem)).g_gcGpuId =
        (gc_debug_cache_gpu_id A s).g_gcGpuId ∧
      (gc_debug_cache_gpu_id A
        ((gc_debug_cache_gpu_id A s).with_mem mem)).hw.log =
        (gc_debug_cache_gpu_id A s).hw.log ∧
      ∀ t : GcState, t.g_gcGpuId.valid = true →
        gc_debug_cache_gpu_id A t = t := by
  have hv : ((gc_debug_cache_gpu_id A s).with_mem mem).g_gcGpuId.valid =
      true := gc_debug_cache_gpu_id_valid A s
  rw [gc_debug_cache_gpu_id_of_valid A _ hv]
  exact ⟨rfl, rfl, gc_debug_cache_gpu_id_of_valid A⟩

/-- Witness of `chip_identity_idempotent`: the state left by the first
capture from the initial state is valid, and a further call returns it. -/
theorem chip_identity_idempotent_witness :
    (gc_debug_cache_gpu_id RegAddr.sample
        (GcState.init Hw.sample)).g_gcGpuId.valid = true ∧
      gc_debug_cache_gpu_id RegAddr.sample
          (gc_debug_cache_gpu_id RegAddr.sample (GcState.init Hw.sample)) =
        gc_debug_cache_gpu_id RegAddr.sample (GcState.init Hw.sample) :=
  ⟨by decide,
    (chip_identity_idempotent RegAddr.sample (GcState.init Hw.sample)
      Hw.sample.mem).2.2 _ (by decide)⟩

/-! ## Reading the `last_error` endpoint -/

/-- C8, counterexample: with the power on, reading `last_error` in the
initial state reads eleven registers and turns the current snapshot valid. -/
theorem last_error_read_refreshes_when_on :
    (GcState.init Hw.sample).hw.log.length = 0 ∧
      (gc_debug_open_gpu_last_error RegAddr.sample gcpower.GCPWR_ON
        (GcState.init Hw.sample)).2.hw.log.length = 11 ∧
      (GcState.init Hw.sample).g_gcGpuStatus.valid = false ∧
      (gc_debug_open_gpu_last_error RegAddr.sample gcpower.GCPWR_ON
        (GcState.init Hw.sample)).2.g_gcGpuStatus.valid = true := by
  decide

/-- The state left by `gc_debug_show_gpu_status` on a non-null pointer:
refreshed when the power is on, untouched otherwise. -/
theorem gc_debug_show_gpu_status_state (A : RegAddr) (power : gcpower)
    (s : GcState) (ref : StatusRef) :
    (gc_debug_show_gpu_status A power s (some ref)).2 =
      if power == gcpower.GCPWR_ON then
        gc_debug_cache_gpu_status_internal A s
          gc_debug_when.GC_DEBUG_USER_REQUEST 0
      else s := by
  unfold gc_debug_show_gpu_status
  simp only []
  split_ifs <;> rfl

/-- C8, amended: reading `last_error` never changes the error latch; when
the power state is not on it reads no register and changes nothing; when the
power state is on it changes the state exactly as the capture
`gc_debug_cache_gpu_status_internal(GC_DEBUG_USER_REQUEST, 0)` does. -/
theorem last_error_read_effect (A : RegAddr) (power : gcpower)
    (s : GcState) :
    (gc_debug_open_gpu_last_error A power s).2.g_gcGpuStatusLastError =
        s.g_gcGpuStatusLastError ∧
      (power ≠ gcpower.GCPWR_ON →
        (gc_debug_open_gpu_last_error A power s).2 = s) ∧
      (power = gcpower.GCPWR_ON →
        (gc_debug_open_gpu_last_error A power s).2 =
          gc_debug_cache_gpu_status_internal A s
            gc_debug_when.GC_DEBUG_USER_REQUEST 0) := by
  have key : (gc_debug_open_gpu_last_error A power s).2 =
      if power == gcpower.GCPWR_ON then
        gc_debug_cache_gpu_status_internal A s
          gc_debug_when.GC_DEBUG_USER_REQUEST 0
      else s := by
    exact gc_debug_show_gpu_status_state A power s StatusRef.lastError
  have hne : haveError gc_debug_when.GC_DEBUG_USER_REQUEST 0 = false := rfl
  refine ⟨?_, ?_, ?_⟩
  · rw [key]
    split
    · exact internal_latch_of_no_error A s _ _ hne
    · rfl
  · intro hp
    rw [key]
    simp [hp]
  · intro hp
    rw [key]
    simp [hp]

/-- Witness of `last_error_read_effect`: a read with the power off in the
initial state reads no register. -/
theorem last_error_read_effect_witness :
    gcpower.GCPWR_OFF ≠ gcpower.GCPWR_ON ∧
      (gc_debug_open_gpu_last_error RegAddr.sample gcpower.GCPWR_OFF
        (GcState.init Hw.sample)).2.hw.log = [] :=
  ⟨by decide,
    congrArg (fun t : GcState => t.hw.log)
      ((last_error_read_effect RegAddr.sample gcpower.GCPWR_OFF
        (GcState.init Hw.sample)).2.1 (by decide))⟩

/-! ## Blit statistics: the report -/

theorem c_div_of_defined (min a b : Int) (h0 : b ≠ 0)
    (h1 : ¬ (a = min ∧ b = -1)) : c_div min a b = some (Int.tdiv a b) := by
  unfold c_div
  rw [if_neg]
  rintro (h | h)
  · exact h0 h
  · exact h1 h

theorem c_div_ne_none (min a b : Int) (h : c_div min a b ≠ none) :
    b ≠ 0 ∧ ¬ (a = min ∧ b = -1) := by
  unfold c_div at h
  by_cases hc : b = 0 ∨ (a = min ∧ b = -1)
  · rw [if_pos hc] at h
    exact absurd rfl h
  · exact ⟨fun h0 => hc (Or.inl h0), fun h1 => hc (Or.inr h1)⟩

theorem show_count_loop_of_defined (st : gc_blt_status) :
    ∀ (n i : Nat),
      (∀ j ∈ List.range' i n, count_division_defined st j) →
      show_count_loop st n i = some (count_lines st i n) := by
  intro n
  induction n with
  | zero => intro i _; rfl
  | succ n ih =>
    intro i h
    have hi : count_division_defined st i :=
      h i (by simp [List.range'_succ])
    have hrest := ih (i + 1) (fun j hj =>
      h j (by
        rw [List.range'_succ]
        exact List.mem_cons_of_mem _ hj))
    simp only [show_count_loop, c_div_of_defined _ _ _ hi.1 hi.2, hrest,
      count_lines, List.range'_succ, List.map_cons]

theorem show_count_loop_defined (st : gc_blt_status) :
    ∀ (n i : Nat), show_count_loop st n i ≠ none →
      ∀ j ∈ List.range' i n, count_division_defined st j := by
  intro n
  induction n with
  | zero => intro i _ j hj; simp at hj
  | succ n ih =>
    intro i h j hj
    simp only [show_count_loop] at h
    have hd : c_div INT_MIN (wrap32 (st.srcCount i * 100))
        (wrap32 st.totalPixels) ≠ none := by
      intro hn
      rw [hn] at h
      exact h rfl
    obtain ⟨pct, hpct⟩ := Option.ne_none_iff_exists'.1 hd
    rw [hpct] at h
    have hr : show_count_loop st n (i + 1) ≠ none := by
      intro hn
      rw [hn] at h
      exact h rfl
    rw [List.range'_succ] at hj
    rcases List.mem_cons.1 hj with rfl | hj'
    · exact c_div_ne_none _ _ _ hd
    · exact ih (i + 1) hr j hj'

theorem show_pixel_loop_of_defined (st : gc_blt_status) :
    ∀ (n i : Nat),
      (∀ j ∈ List.range' i n, pixel_division_defined st j) →
      show_pixel_loop st n i = some (pixel_lines st i n) := by
  intro n
  induction n with
  | zero => intro i _; rfl
  | succ n ih =>
    intro i h
    have hi : pixel_division_defined st i :=
      h i (by simp [List.range'_succ])
    have hrest := ih (i + 1) (fun j hj =>
      h j (by
        rw [List.range'_succ]
        exact List.mem_cons_of_mem _ hj))
    simp only [show_pixel_loop, c_div_of_defined _ _ _ hi.1 hi.2, hrest,
      pixel_lines, List.range'_succ, List.map_cons]

theorem show_pixel_loop_defined (st : gc_blt_status) :
    ∀ (n i : Nat), show_pixel_loop st n i ≠ none →
      ∀ j ∈ List.range' i n, pixel_division_defined st j := by
  intro n
  induction n with
  | zero => intro i _ j hj; simp at hj
  | succ n ih =>
    intro i h j hj
    simp only [show_pixel_loop] at h
    have hd : c_div LLONG_MIN (wrap64 (st.srcCountPixels i * 100))
        st.totalPixels ≠ none := by
      intro hn
      rw [hn] at h
      exact h rfl
    obtain ⟨pct, hpct⟩ := Option.ne_none_iff_exists'.1 hd
    rw [hpct] at h
    have hr : show_pixel_loop st n (i + 1) ≠ none := by
      intro hn
      rw [hn] at h
      exact h rfl
    rw [List.range'_succ] at hj
    rcases List.mem_cons.1 hj with rfl | hj'
    · exact c_div_ne_none _ _ _ hd
    · exact ih (i + 1) hr j hj'

/-- The report when every division it executes is defined. -/
theorem gc_debug_show_blt_stats_of_defined (st : gc_blt_status)
    (h : drain_defined st) :
    gc_debug_show_blt_stats st =
      some ([BltLine.totalBlts st.totalCount] ++
          (if st.totalCount ≠ 0 then count_lines st 1 MAX_BLT_SOURCES
            else []) ++
          [BltLine.totalDstPixels st.totalPixels] ++
          (if st.totalPixels ≠ 0 then pixel_lines st 1 MAX_BLT_SOURCES
            else []),
        gc_debug_reset_blt_stats st) := by
  unfold gc_debug_show_blt_stats
  by_cases hc : st.totalCount = 0 <;> by_cases hp : st.totalPixels = 0
  · simp [hc, hp]
  · have e2 := show_pixel_loop_of_defined st _ _ (h.2 hp)
    simp [hc, hp, e2]
  · have e1 := show_count_loop_of_defined st _ _ (h.1 hc)
    simp [hc, hp, e1]
  · have e1 := show_count_loop_of_defined st _ _ (h.1 hc)
    have e2 := show_pixel_loop_of_defined st _ _ (h.2 hp)
    simp [hc, hp, e1, e2]

/-- The report is produced exactly when every division it executes is
defined. -/
theorem gc_debug_show_blt_stats_defined_iff (st : gc_blt_status) :
    gc_debug_show_blt_stats st ≠ none ↔ drain_defined st := by
  constructor
  · intro h
    constructor
    · intro hc
      apply show_count_loop_defined st
      intro hn
      apply h
      unfold gc_debug_show_blt_stats
      simp only [hc, ne_eq, not_false_eq_true, if_true, hn]
    · intro hp
      apply show_pixel_loop_defined st
      intro hn
      apply h
      unfold gc_debug_show_blt_stats
      simp only [hp, ne_eq, not_false_eq_true, if_true, hn]
      split <;> rfl
  · intro h
    rw [gc_debug_show_blt_stats_of_defined st h]
    exact Option.some_ne_none _

/-- C6, evaluation at the scenario of the spec: after `record(2,100,50)`,
`record(2,100,50)`, `record(1,10,10)` the report prints 0% for the bucket of
two sources, where the share of the three blits is 66%: the divisor of the
count percentage is `(int) totalPixels` (10100), not `totalCount` (3). -/
theorem count_percentage_divides_by_pixels :
    (run_blt gc_blt_status.zero
        [⟨2, 100, 50⟩, ⟨2, 100, 50⟩, ⟨1, 10, 10⟩]).bind
        (fun st => (gc_debug_show_blt_stats st).map (fun r => r.1)) =
      some [BltLine.totalBlts 3,
        BltLine.srcCount 1 1 0, BltLine.srcCount 2 2 0,
        BltLine.srcCount 3 0 0, BltLine.srcCount 4 0 0,
        BltLine.srcCount 5 0 0, BltLine.srcCount 6 0 0,
        BltLine.srcCount 7 0 0, BltLine.srcCount 8 0 0,
        BltLine.totalDstPixels 10100,
        BltLine.srcPixels 1 100 0, BltLine.srcPixels 2 10000 99,
        BltLine.srcPixels 3 0 0, BltLine.srcPixels 4 0 0,
        BltLine.srcPixels 5 0 0, BltLine.srcPixels 6 0 0,
        BltLine.srcPixels 7 0 0, BltLine.srcPixels 8 0 0] ∧
      Int.tdiv (2 * 100) 3 = 66 ∧ Int.tdiv (2 * 100) 10100 = 0 := by
  decide

/-- C7, evaluation at a failing input: after the single call
`record(1, 0, 5)` the statistics have `totalCount = 1` and
`totalPixels = 0`, the first loop of the report divides by
`(int) totalPixels = 0`, and the report fails. -/
theorem drain_divides_by_zero :
    Option.map gc_blt_status.totalCount
        (run_blt gc_blt_status.zero [⟨1, 0, 5⟩]) = some 1 ∧
      Option.map gc_blt_status.totalPixels
        (run_blt gc_blt_status.zero [⟨1, 0, 5⟩]) = some 0 ∧
      Option.map show_blt_divisors
        (run_blt gc_blt_status.zero [⟨1, 0, 5⟩]) =
          some [0, 0, 0, 0, 0, 0, 0, 0] ∧
      Option.isNone
        ((run_blt gc_blt_status.zero [⟨1, 0, 5⟩]).bind
          gc_debug_show_blt_stats) = true := by
  decide

/-! ## Blit statistics: the sums -/

theorem wrap32_range (x : Int) :
    -2147483648 ≤ wrap32 x ∧ wrap32 x < 2147483648 := by
  unfold wrap32
  omega

theorem gc_debug_blt_accepts (st : gc_blt_status) (s w h : Int)
    (h0 : 0 ≤ s) (h8 : s ≤ 8) :
    gc_debug_blt st s w h =
      some
        { totalCount := wrap32 (st.totalCount + 1),
          totalPixels := wrap64 (st.totalPixels + wrap32 (w * h)),
          srcCount := fun j =>
            if j = s.toNat then wrap32 (st.srcCount s.toNat + 1)
            else st.srcCount j,
          srcCountPixels := fun j =>
            if j = s.toNat then
              wrap64 (st.srcCountPixels s.toNat + wrap32 (w * h))
            else st.srcCountPixels j } := by
  unfold gc_debug_blt
  have e1 : ¬ (s > (MAX_BLT_SOURCES : Int)) := by
    simp only [MAX_BLT_SOURCES]; push_cast; omega
  have e2 : ¬ (s < 0) := by omega
  simp only [e1, e2, if_false]

theorem gc_debug_blt_inv_mod (st : gc_blt_status) (s w h : Int)
    (h1 : 1 ≤ s) (h8 : s ≤ 8) (hinv : blt_inv_mod st) :
    ∃ st1, gc_debug_blt st s w h = some st1 ∧ blt_inv_mod st1 := by
  obtain ⟨hc, hp⟩ := hinv
  refine ⟨_, gc_debug_blt_accepts st s w h (by omega) h8, ?_⟩
  generalize wrap32 (w * h) = q
  unfold wrap32 at hc
  unfold wrap64 at hp
  simp only [sum_srcCount, sum_srcCountPixels] at hc hp
  obtain ⟨k, rfl⟩ := Int.eq_ofNat_of_zero_le (by omega : 0 ≤ s)
  have hk1 : 1 ≤ k := by omega
  have hk8 : k ≤ 8 := by omega
  simp only [Int.toNat_ofNat, blt_inv_mod, sum_srcCount, sum_srcCountPixels]
  clear h1 h8
  interval_cases k <;>
    · norm_num
      unfold wrap32 wrap64
      constructor <;> omega

theorem gc_debug_blt_inv_exact (st : gc_blt_status) (s w h n : Int)
    (h1 : 1 ≤ s) (h8 : s ≤ 8) (hlt : n + 1 < 2147483648)
    (hinv : blt_inv_exact n st) :
    ∃ st1, gc_debug_blt st s w h = some st1 ∧ blt_inv_exact (n + 1) st1 := by
  obtain ⟨hT, hS, hP, hall⟩ := hinv
  refine ⟨_, gc_debug_blt_accepts st s w h (by omega) h8, ?_⟩
  have hq := wrap32_range (w * h)
  generalize wrap32 (w * h) = q at hq
  simp only [sum_srcCount, sum_srcCountPixels] at hS hP
  have a1 := hall 1
  have a2 := hall 2
  have a3 := hall 3
  have a4 := hall 4
  have a5 := hall 5
  have a6 := hall 6
  have a7 := hall 7
  have a8 := hall 8
  obtain ⟨k, rfl⟩ := Int.eq_ofNat_of_zero_le (by omega : 0 ≤ s)
  have hk1 : 1 ≤ k := by omega
  have hk8 : k ≤ 8 := by omega
  simp only [Int.toNat_ofNat, blt_inv_exact, sum_srcCount,
    sum_srcCountPixels]
  clear h1 h8
  interval_cases k <;>
    · refine ⟨?_, ?_, ?_, ?_⟩
      · unfold wrap32; omega
      · norm_num; unfold wrap32; omega
      · norm_num; unfold wrap64; omega
      · intro i
        have ai := hall i
        split_ifs with hi
        · unfold wrap32 wrap64; omega
        · exact ai

theorem run_blt_append (st : gc_blt_status) (xs ys : List BltCall) :
    run_blt st (xs ++ ys) = (run_blt st xs).bind (fun t => run_blt t ys) := by
  induction xs generalizing st with
  | nil => rfl
  | cons c cs ih =>
    simp only [List.cons_append, run_blt]
    cases gc_debug_blt st c.srccount c.dstWidth c.dstHeight with
    | none => rfl
    | some st1 => exact ih st1

theorem run_blt_inv_mod :
    ∀ (cs : List BltCall) (st : gc_blt_status),
      (∀ c ∈ cs, 1 ≤ c.srccount ∧ c.srccount ≤ 8) → blt_inv_mod st →
      ∃ st1, run_blt st cs = some st1 ∧ blt_inv_mod st1 := by
  intro cs
  induction cs with
  | nil => intro st _ h; exact ⟨st, rfl, h⟩
  | cons c cs ih =>
    intro st hs h
    have hc := hs c (List.mem_cons_self _ _)
    obtain ⟨st1, e1, i1⟩ :=
      gc_debug_blt_inv_mod st c.srccount c.dstWidth c.dstHeight hc.1 hc.2 h
    obtain ⟨st2, e2, i2⟩ :=
      ih st1 (fun d hd => hs d (List.mem_cons_of_mem _ hd)) i1
    exact ⟨st2, by simp only [run_blt, e1, e2], i2⟩

theorem run_blt_inv_exact :
    ∀ (cs : List BltCall) (st : gc_blt_status) (n : Int),
      (∀ c ∈ cs, 1 ≤ c.srccount ∧ c.srccount ≤ 8) →
      n + cs.length < 2147483648 → blt_inv_exact n st →
      ∃ st1, run_blt st cs = some st1 ∧ blt_inv_exact (n + cs.length) st1 := by
  intro cs
  induction cs with
  | nil => intro st n _ _ h; exact ⟨st, rfl, by simpa using h⟩
  | cons c cs ih =>
    intro st n hs hn h
    have hc := hs c (List.mem_cons_self _ _)
    simp only [List.length_cons, Nat.cast_add, Nat.cast_one] at hn ⊢
    obtain ⟨st1, e1, i1⟩ :=
      gc_debug_blt_inv_exact st c.srccount c.dstWidth c.dstHeight n hc.1 hc.2
        (by omega) h
    obtain ⟨st2, e2, i2⟩ :=
      ih st1 (n + 1) (fun d hd => hs d (List.mem_cons_of_mem _ hd))
        (by omega) i1
    refine ⟨st2, by simp only [run_blt, e1, e2], ?_⟩
    have e : n + (↑cs.length + 1) = n + 1 + ↑cs.length := by ring
    rw [e]
    exact i2

theorem blt_inv_mod_zero : blt_inv_mod gc_blt_status.zero := by
  constructor <;> decide

theorem blt_inv_exact_zero : blt_inv_exact 0 gc_blt_status.zero := by
  refine ⟨rfl, rfl, rfl, fun i => ?_⟩
  simp [gc_blt_status.zero]


theorem gc_debug_blt_count_effect (st : gc_blt_status) (s : Int) (k : Nat)
    (hs : s = k) (hk : k ≤ 8) :
    ∃ st1, gc_debug_blt st s 0 0 = some st1 ∧
      st1.totalCount = wrap32 (st.totalCount + 1) ∧
      st1.srcCount k = wrap32 (st.srcCount k + 1) ∧
      ∀ j, j ≠ k → st1.srcCount j = st.srcCount j := by
  subst hs
  refine ⟨_, gc_debug_blt_accepts st (k : Int) 0 0 (by omega) (by omega),
    rfl, ?_, ?_⟩
  · simp only [Int.toNat_ofNat, if_true]
  · intro j hj
    simp only [Int.toNat_ofNat, if_neg hj]

theorem run_blt_replicate (s : Int) (k : Nat) (hs : s = k) (hk : k ≤ 8) :
    ∀ (n : Nat) (st : gc_blt_status),
      (-2147483648 ≤ st.totalCount ∧ st.totalCount < 2147483648) →
      (-2147483648 ≤ st.srcCount k ∧ st.srcCount k < 2147483648) →
      ∃ st1, run_blt st (List.replicate n ⟨s, 0, 0⟩) = some st1 ∧
        st1.totalCount = wrap32 (st.totalCount + n) ∧
        st1.srcCount k = wrap32 (st.srcCount k + n) ∧
        ∀ j, j ≠ k → st1.srcCount j = st.srcCount j := by
  intro n
  induction n with
  | zero =>
    intro st hT hC
    refine ⟨st, rfl, ?_, ?_, fun _ _ => rfl⟩
    · unfold wrap32; push_cast; omega
    · unfold wrap32; push_cast; omega
  | succ n ih =>
    intro st hT hC
    obtain ⟨st0, e0, t0, c0, o0⟩ := gc_debug_blt_count_effect st s k hs hk
    obtain ⟨st1, r1, t1, c1, o1⟩ := ih st0
      (by rw [t0]; exact wrap32_range _) (by rw [c0]; exact wrap32_range _)
    refine ⟨st1, by simp only [List.replicate_succ, run_blt, e0, r1],
      ?_, ?_, ?_⟩
    · rw [t1, t0]; unfold wrap32; push_cast; omega
    · rw [c1, c0]; unfold wrap32; push_cast; omega
    · intro j hj
      rw [o1 j hj, o0 j hj]

/-- C5, counterexample: `2^30` calls `record(1,0,0)` followed by `2^30` calls
`record(2,0,0)` leave `srcCount[1] = srcCount[2] = 2^30`, whose sum is
`2^31`, while the 32-bit `totalCount` has wrapped to `-2^31`. -/
theorem blt_count_sum_overflows :
    Option.map sum_srcCount
        (run_blt gc_blt_status.zero
          (List.replicate 1073741824 ⟨1, 0, 0⟩ ++
            List.replicate 1073741824 ⟨2, 0, 0⟩)) = some 2147483648 ∧
      Option.map gc_blt_status.totalCount
        (run_blt gc_blt_status.zero
          (List.replicate 1073741824 ⟨1, 0, 0⟩ ++
            List.replicate 1073741824 ⟨2, 0, 0⟩)) = some (-2147483648) := by
  obtain ⟨st1, r1, t1, c1, o1⟩ :=
    run_blt_replicate 1 1 rfl (by decide) 1073741824 gc_blt_status.zero
      (by decide) (by decide)
  have ht1 : st1.totalCount = 1073741824 := by rw [t1]; decide
  have hc1 : st1.srcCount 1 = 1073741824 := by rw [c1]; decide
  obtain ⟨st2, r2, t2, c2, o2⟩ :=
    run_blt_replicate 2 2 rfl (by decide) 1073741824 st1
      (by rw [ht1]; decide) (by rw [o1 2 (by decide)]; decide)
  have ht2 : st2.totalCount = -2147483648 := by rw [t2, ht1]; decide
  have hc2 : st2.srcCount 2 = 1073741824 := by
    rw [c2, o1 2 (by decide)]; decide
  have hrun : run_blt gc_blt_status.zero
      (List.replicate 1073741824 ⟨1, 0, 0⟩ ++
        List.replicate 1073741824 ⟨2, 0, 0⟩) = some st2 := by
    rw [run_blt_append, r1, Option.some_bind]
    exact r2
  rw [hrun]
  refine ⟨?_, by rw [Option.map_some', ht2]⟩
  have z : ∀ j, j ≠ 1 → j ≠ 2 → st2.srcCount j = 0 := by
    intro j h1 h2
    rw [o2 j h2, o1 j h1]
    rfl
  have h21 : st2.srcCount 1 = 1073741824 := by
    rw [o2 1 (by decide), hc1]
  simp only [Option.map_some', sum_srcCount, h21, hc2,
    z 3 (by decide) (by decide), z 4 (by decide) (by decide),
    z 5 (by decide) (by decide), z 6 (by decide) (by decide),
    z 7 (by decide) (by decide), z 8 (by decide) (by decide)]
  rfl

/-- C5, amended: after every sequence of `record` calls with
`1 <= s <= 8`, started from the all-zero statistics, the sum of
`srcCount[1..8]` equals `totalCount` modulo `2^32` and the sum of
`srcCountPixels[1..8]` equals `totalPixels` modulo `2^64` (the sums taken in
the counters' own wrapping arithmetic); and when the sequence has fewer than
`2^31` calls both sums equal the totals exactly. -/
theorem blt_sums_law (cs : List BltCall)
    (hs : ∀ c ∈ cs, 1 ≤ c.srccount ∧ c.srccount ≤ 8) :
    ∃ st, run_blt gc_blt_status.zero cs = some st ∧
      wrap32 (sum_srcCount st) = st.totalCount ∧
      wrap64 (sum_srcCountPixels st) = st.totalPixels ∧
      (cs.length < 2147483648 →
        sum_srcCount st = st.totalCount ∧
          sum_srcCountPixels st = st.totalPixels) := by
  obtain ⟨st, hrun, hc, hp⟩ :=
    run_blt_inv_mod cs gc_blt_status.zero hs blt_inv_mod_zero
  refine ⟨st, hrun, hc, hp, fun hlen => ?_⟩
  obtain ⟨st', hrun', hT, hS, hP, _⟩ :=
    run_blt_inv_exact cs gc_blt_status.zero 0 hs (by omega)
      blt_inv_exact_zero
  have e : st' = st := Option.some.inj (hrun'.symm.trans hrun)
  subst e
  exact ⟨hS.trans hT.symm, hP⟩

/-- Witness of `blt_sums_law`: the three calls of the scenario. -/
theorem blt_sums_law_witness :
    (∀ c ∈ ([⟨2, 100, 50⟩, ⟨2, 100, 50⟩, ⟨1, 10, 10⟩] : List BltCall),
        1 ≤ c.srccount ∧ c.srccount ≤ 8) ∧
      ∃ st, run_blt gc_blt_status.zero
          [⟨2, 100, 50⟩, ⟨2, 100, 50⟩, ⟨1, 10, 10⟩] = some st ∧
        wrap32 (sum_srcCount st) = st.totalCount ∧
        wrap64 (sum_srcCountPixels st) = st.totalPixels ∧
        (([⟨2, 100, 50⟩, ⟨2, 100, 50⟩, ⟨1, 10, 10⟩] :
            List BltCall).length < 2147483648 →
          sum_srcCount st = st.totalCount ∧
            sum_srcCountPixels st = st.totalPixels) :=
  ⟨by decide,
    blt_sums_law [⟨2, 100, 50⟩, ⟨2, 100, 50⟩, ⟨1, 10, 10⟩] (by decide)⟩

/-! ## The `log/enable` write handler -/

theorem cstr_append_nul (t rest : List Nat) (h : ∀ b ∈ t, b ≠ 0) :
    cstr (t ++ 0 :: rest) = t := by
  induction t with
  | nil => simp [cstr]
  | cons a t ih =>
    have ha : a ≠ 0 := h a (List.mem_cons_self _ _)
    have ht : ∀ b ∈ t, b ≠ 0 := fun b hb => h b (List.mem_cons_of_mem _ hb)
    have hb : (a != 0) = true := by simpa using ha
    have := ih ht
    simp only [cstr] at this ⊢
    rw [List.cons_append, List.takeWhile_cons, hb, if_pos rfl, this]

theorem line_split (line : List Nat) (h : 32 ∈ line) :
    line = before_space line ++ 32 :: after_space line := by
  induction line with
  | nil => simp at h
  | cons a t ih =>
    by_cases ha : a = 32
    · subst ha
      simp [before_space, after_space, List.takeWhile, List.dropWhile]
    · have ht : 32 ∈ t := by
        rcases List.mem_cons.1 h with h1 | h1
        · exact absurd h1.symm ha
        · exact h1
      have hb : (a != 32) = true := by simpa using ha
      have := ih ht
      simp only [before_space, after_space] at this ⊢
      rw [List.takeWhile_cons, List.dropWhile_cons, hb, if_pos rfl,
        if_pos rfl, List.cons_append, ← this]

theorem before_space_no_space (line : List Nat) :
    ∀ b ∈ before_space line, b ≠ 32 := by
  intro b hb
  have := List.mem_takeWhile_imp hb
  simpa using this

theorem line_no_space (line : List Nat) (h : 32 ∉ line) :
    before_space line = line ∧ after_space line = [] := by
  induction line with
  | nil => simp [before_space, after_space]
  | cons a t ih =>
    have ha : a ≠ 32 := fun e => h (e ▸ List.mem_cons_self _ _)
    have ht : 32 ∉ t := fun e => h (List.mem_cons_of_mem _ e)
    have hb : (a != 32) = true := by simpa using ha
    have := ih ht
    simp only [before_space, after_space] at this ⊢
    rw [List.takeWhile_cons, List.dropWhile_cons, hb, if_pos rfl,
      if_pos rfl, this.1, this.2]
    exact ⟨rfl, rfl⟩

theorem scan_space_not_found (kstrtoul : List Nat → Option Nat)
    (buf : List Nat) :
    ∀ (n i : Nat), (∀ j, i ≤ j → j < i + n → buf.getD j 0 ≠ 32) →
      scan_space kstrtoul buf n i = ScanResult.notFound := by
  intro n
  induction n with
  | zero => intro i _; rfl
  | succ n ih =>
    intro i h
    have hi : buf.getD i 0 ≠ 32 := h i (le_refl _) (by omega)
    simp only [scan_space, beq_iff_eq, hi, if_false]
    exact ih (i + 1) (fun j h1 h2 => h j (by omega) (by omega))

theorem scan_space_found (kstrtoul : List Nat → Option Nat)
    (buf : List Nat) (p : Nat) (hp : buf.getD p 0 = 32) :
    ∀ (n i : Nat), i ≤ p → p < i + n →
      (∀ j, i ≤ j → j < p → buf.getD j 0 ≠ 32) →
      scan_space kstrtoul buf n i =
        match kstrtoul (cstr ((buf.set p 0).drop (p + 1))) with
        | none => ScanResult.badValue
        | some val => ScanResult.found (cstr (buf.set p 0)) val := by
  intro n
  induction n with
  | zero => intro i h1 h2 _; omega
  | succ n ih =>
    intro i h1 h2 h
    by_cases hip : i = p
    · subst hip
      simp only [scan_space, beq_iff_eq, hp, if_true]
    · have hi : buf.getD i 0 ≠ 32 := h i (le_refl _) (by omega)
      simp only [scan_space, beq_iff_eq, hi, if_false]
      exact ih (i + 1) (by omega) (by omega)
        (fun j h3 h4 => h j (by omega) h4)

theorem getD_prefix_mem (pre rest : List Nat) :
    ∀ j, j < pre.length → (pre ++ rest).getD j 0 ∈ pre := by
  induction pre with
  | nil => intro j h; simp at h
  | cons a t ih =>
    intro j h
    cases j with
    | zero => simp
    | succ j =>
      have := ih j (by simpa using h)
      simp only [List.cons_append, List.getD_cons_succ]
      exact List.mem_cons_of_mem _ this

theorem getD_at_length (pre rest : List Nat) (x : Nat) :
    (pre ++ x :: rest).getD pre.length 0 = x := by
  induction pre with
  | nil => simp
  | cons a t ih => simpa using ih

theorem set_at_length (pre rest : List Nat) (x y : Nat) :
    (pre ++ x :: rest).set pre.length y = pre ++ y :: rest := by
  simp

theorem drop_at_length (pre rest : List Nat) (x : Nat) :
    (pre ++ x :: rest).drop (pre.length + 1) = rest := by
  simp

theorem cstr_nul_cut (t rest : List Nat) :
    cstr (t ++ 0 :: rest) = cstr t := by
  induction t with
  | nil => simp [cstr]
  | cons a t ih =>
    simp only [cstr] at ih ⊢
    by_cases ha : a = 0
    · subst ha
      simp
    · have hb : (a != 0) = true := by simpa using ha
      rw [List.cons_append, List.takeWhile_cons, List.takeWhile_cons, hb,
        if_pos rfl, if_pos rfl, ih]

theorem cstr_of_text (t : List Nat) (h : ∀ b ∈ t, b ≠ 0) : cstr t = t := by
  have := cstr_append_nul t [] h
  rw [cstr_nul_cut] at this
  exact this

theorem before_space_subset (line : List Nat) :
    ∀ b ∈ before_space line, b ∈ line :=
  fun _ hb => (List.takeWhile_sublist _).subset hb

theorem after_space_subset (line : List Nat) :
    ∀ b ∈ after_space line, b ∈ line :=
  fun _ hb =>
    (List.dropWhile_sublist _).subset ((List.drop_sublist _ _).subset hb)

/-- What the handler does on a line of bytes, every text being read as a C
string: the value of the whole line decides between enable and disable;
otherwise the value after the first space, if there is one, sets the filter
named before it. -/
theorem gc_debug_write_log_enable_bytes (kstrtoul : List Nat → Option Nat)
    (line : List Nat) (hne : line ≠ []) (hlen : line.length ≤ 127)
    (hempty : kstrtoul [] = none) :
    gc_debug_write_log_enable kstrtoul line line.length =
      match kstrtoul (cstr line) with
      | some val =>
        if val ≠ 0 then some ((line.length : Int), [LogCall.GCDBG_ENABLEDUMP])
        else some ((line.length : Int), [LogCall.GCDBG_DISABLEDUMP])
      | none =>
        match kstrtoul (cstr (after_space line)) with
        | none => some (-EINVAL, [])
        | some val =>
          some ((line.length : Int),
            [LogCall.GCDBG_SETFILTER (cstr (before_space line)) val]) := by
  have hL : min line.length (128 - 1) = line.length := by
    simp only [Nat.reduceSub]; omega
  have hpos : line.length ≠ 0 := fun h => hne (List.length_eq_zero.1 h)
  have hc : cstr (line ++ [0]) = cstr line := cstr_nul_cut line []
  have hce : cstr ([] : List Nat) = [] := rfl
  unfold gc_debug_write_log_enable
  simp only [hL, lt_irrefl, if_false, List.take_length, hc]
  cases hk : kstrtoul (cstr line) with
  | some val => rfl
  | none =>
    simp only [hpos, if_false]
    by_cases hsp : 32 ∈ line
    · have hs := line_split line hsp
      have hpre := before_space_no_space line
      generalize before_space line = pre at hs hpre
      generalize after_space line = aft at hs
      subst hs
      have hbuf : (pre ++ 32 :: aft) ++ [0] = pre ++ 32 :: (aft ++ [0]) := by
        simp
      rw [hbuf]
      by_cases ha : aft = []
      · subst ha
        have hn : scan_space kstrtoul (pre ++ 32 :: ([] ++ [0]))
            ((pre ++ [32]).length - 1) 0 = ScanResult.notFound := by
          apply scan_space_not_found
          intro j _ hj
          have hj' : j < pre.length := by
            simp only [List.length_append, List.length_singleton] at hj
            omega
          exact hpre _ (getD_prefix_mem pre _ j hj')
        rw [hn, hce, hempty]
      · have hlen2 : 0 < aft.length := List.length_pos.2 ha
        have hf := scan_space_found kstrtoul (pre ++ 32 :: (aft ++ [0]))
          pre.length (getD_at_length pre _ 32)
          ((pre ++ 32 :: aft).length - 1) 0 (Nat.zero_le _)
          (by simp only [List.length_append, List.length_cons]; omega)
          (fun j _ hj => hpre _ (getD_prefix_mem pre _ j hj))
        rw [hf, set_at_length, drop_at_length, cstr_nul_cut aft [],
          cstr_nul_cut pre _]
        cases kstrtoul (cstr aft) <;> rfl
    · obtain ⟨hb, ha⟩ := line_no_space line hsp
      have hn : scan_space kstrtoul (line ++ [0]) (line.length - 1) 0 =
          ScanResult.notFound := by
        apply scan_space_not_found
        intro j _ hj
        have hj' : j < line.length := by omega
        intro h32
        exact hsp (h32 ▸ getD_prefix_mem line [0] j hj')
      rw [hn, ha, hce, hempty]

/-- C9, counterexample: on the four bytes `b`, NUL, space, `3` the whole
line does not parse, the text after the first space parses as 3 and the text
before it is `b`, NUL; the handler sets the filter named `b`, without the
NUL byte. -/
theorem write_log_enable_name_cut_at_nul :
    kstrtoul_dec [98, 0, 32, 51] = none ∧
      kstrtoul_dec (after_space [98, 0, 32, 51]) = some 3 ∧
      before_space [98, 0, 32, 51] = [98, 0] ∧
      gc_debug_write_log_enable kstrtoul_dec [98, 0, 32, 51] 4 =
        some (4, [LogCall.GCDBG_SETFILTER [98] 3]) := by
  decide

/-- C9, amended (dispatch of `gc_debug_write_log_enable`): for a non-empty
line of at most 127 bytes, every text being read as a C string (cut at its
first NUL byte), with a parser that rejects the empty string: a whole line
that parses as a nonzero value enables the logger, a whole line that parses
as zero disables it, and a line that does not parse while the text after its
first space parses as `v` sets the filter named by the text before that
space to `v`.  In each case that is the only logger call and the handler
returns the byte count.  On a line without NUL byte the three texts are the
whole line, the text after and the text before the first space
themselves. -/
theorem write_log_enable_dispatch (kstrtoul : List Nat → Option Nat)
    (line : List Nat) (hne : line ≠ []) (hlen : line.length ≤ 127)
    (hempty : kstrtoul [] = none) :
    (∀ v, kstrtoul (cstr line) = some v → v ≠ 0 →
        gc_debug_write_log_enable kstrtoul line line.length =
          some ((line.length : Int), [LogCall.GCDBG_ENABLEDUMP])) ∧
      (kstrtoul (cstr line) = some 0 →
        gc_debug_write_log_enable kstrtoul line line.length =
          some ((line.length : Int), [LogCall.GCDBG_DISABLEDUMP])) ∧
      (∀ v, kstrtoul (cstr line) = none →
        kstrtoul (cstr (after_space line)) = some v →
        gc_debug_write_log_enable kstrtoul line line.length =
          some ((line.length : Int),
            [LogCall.GCDBG_SETFILTER (cstr (before_space line)) v])) ∧
      ((∀ b ∈ line, b ≠ 0) →
        cstr line = line ∧ cstr (after_space line) = after_space line ∧
          cstr (before_space line) = before_space line) := by
  have key := gc_debug_write_log_enable_bytes kstrtoul line hne hlen hempty
  refine ⟨?_, ?_, ?_, ?_⟩
  · intro v hv hv0
    rw [key, hv]
    simp [hv0]
  · intro hv
    rw [key, hv]
    simp
  · intro v hv ha
    rw [key, hv, ha]
  · intro htext
    exact ⟨cstr_of_text line htext,
      cstr_of_text _ (fun b hb => htext b (after_space_subset line b hb)),
      cstr_of_text _ (fun b hb => htext b (before_space_subset line b hb))⟩

/-- Witness of `write_log_enable_dispatch`: with the decimal parser, the
line `7` enables the logger and the line `blit 3` sets the filter `blit`
to 3. -/
theorem write_log_enable_dispatch_witness :
    gc_debug_write_log_enable kstrtoul_dec [55] 1 =
        some (1, [LogCall.GCDBG_ENABLEDUMP]) ∧
      gc_debug_write_log_enable kstrtoul_dec [98, 108, 105, 116, 32, 51] 6 =
        some (6, [LogCall.GCDBG_SETFILTER [98, 108, 105, 116] 3]) :=
  ⟨(write_log_enable_dispatch kstrtoul_dec [55] (by decide) (by decide)
      rfl).1 7 (by decide) (by decide),
    (write_log_enable_dispatch kstrtoul_dec [98, 108, 105, 116, 32, 51]
      (by decide) (by decide) rfl).2.2.1 3 (by decide) (by decide)⟩

/-- C10, counterexample: on the three bytes `7`, NUL, `x` the whole line
does not parse and has no space, yet the handler enables the logger and
returns 3: the parser is given the line up to its first NUL byte. -/
theorem write_log_enable_accepts_past_nul :
    kstrtoul_dec [55, 0, 120] = none ∧ 32 ∉ [55, 0, 120] ∧
      gc_debug_write_log_enable kstrtoul_dec [55, 0, 120] 3 =
        some (3, [LogCall.GCDBG_ENABLEDUMP]) := by
  decide

/-- C10, amended (rejection by `gc_debug_write_log_enable`): for a
non-empty line of at most 127 bytes, every text being read as a C string
(cut at its first NUL byte), with a parser that rejects the empty string,
the handler returns `-EINVAL` exactly when the whole line does not parse and
either the line has no space or the text after its first space does not
parse; whenever the handler returns a negative value it has made no logger
call.  On a line without NUL byte the texts are the whole line and the text
after the first space themselves. -/
theorem write_log_enable_rejection (kstrtoul : List Nat → Option Nat)
    (line : List Nat) (hne : line ≠ []) (hlen : line.length ≤ 127)
    (hempty : kstrtoul [] = none) :
    ((gc_debug_write_log_enable kstrtoul line line.length).map Prod.fst =
          some (-EINVAL) ↔
        (kstrtoul (cstr line) = none ∧
          (32 ∉ line ∨ kstrtoul (cstr (after_space line)) = none))) ∧
      (∀ r, gc_debug_write_log_enable kstrtoul line line.length = some r →
        r.1 < 0 → r.2 = []) ∧
      ((∀ b ∈ line, b ≠ 0) →
        cstr line = line ∧ cstr (after_space line) = after_space line) := by
  have key := gc_debug_write_log_enable_bytes kstrtoul line hne hlen hempty
  have hpos : (0 : Int) < line.length := by
    have : 0 < line.length := List.length_pos.2 hne
    exact_mod_cast this
  have hE : ¬ ((line.length : Int) = -EINVAL) := by
    simp only [EINVAL]; omega
  have hnosp : 32 ∉ line → kstrtoul (cstr (after_space line)) = none := by
    intro h
    rw [(line_no_space line h).2]
    exact hempty
  rw [key]
  refine ⟨?_, ?_, ?_⟩
  · cases hk : kstrtoul (cstr line) with
    | some val =>
      by_cases hv : val ≠ 0 <;> simp [hv, hE]
    | none =>
      cases ha : kstrtoul (cstr (after_space line)) with
      | none => simp
      | some v =>
        have h32 : 32 ∈ line := by
          by_contra h
          rw [hnosp h] at ha
          exact Option.noConfusion ha
        simp [hE, h32]
  · intro r hr hneg
    cases hk : kstrtoul (cstr line) with
    | some val =>
      rw [hk] at hr
      by_cases hv : val ≠ 0
      · simp only [hv, if_true, ne_eq, not_false_eq_true] at hr
        have := Option.some.inj hr
        subst this
        simp only at hneg
        omega
      · simp only [hv, if_false] at hr
        have := Option.some.inj hr
        subst this
        simp only at hneg
        omega
    | none =>
      rw [hk] at hr
      cases ha : kstrtoul (cstr (after_space line)) with
      | none =>
        rw [ha] at hr
        have := Option.some.inj hr
        subst this
        rfl
      | some v =>
        rw [ha] at hr
        have := Option.some.inj hr
        subst this
        simp only at hneg
        omega
  · intro htext
    exact ⟨cstr_of_text line htext,
      cstr_of_text _ (fun b hb => htext b (after_space_subset line b hb))⟩

/-- Witness of `write_log_enable_rejection`: with the decimal parser, the
line `blit` is rejected with `-EINVAL`. -/
theorem write_log_enable_rejection_witness :
    (kstrtoul_dec (cstr [98, 108, 105, 116]) = none ∧
        (32 ∉ [98, 108, 105, 116] ∨
          kstrtoul_dec (cstr (after_space [98, 108, 105, 116])) = none)) ∧
      (gc_debug_write_log_enable kstrtoul_dec [98, 108, 105, 116]
          ([98, 108, 105, 116] : List Nat).length).map Prod.fst =
        some (-EINVAL) :=
  ⟨by decide,
    (write_log_enable_rejection kstrtoul_dec [98, 108, 105, 116]
      (by decide) (by decide) rfl).1.2 (by decide)⟩

/-! ## Blit statistics: single records -/

/-- The guard of `gc_debug_blt`: above `MAX_BLT_SOURCES` the call returns
at once. -/
theorem gc_debug_blt_of_oversized (st : gc_blt_status)
    (srccount dstWidth dstHeight : Int) (h : srccount > 8) :
    gc_debug_blt st srccount dstWidth dstHeight = some st := by
  unfold gc_debug_blt
  have e : srccount > (MAX_BLT_SOURCES : Int) := by
    simp only [MAX_BLT_SOURCES]; push_cast; omega
  simp only [e, if_true]

/-- C11 (oversized source count is dropped): a call of `gc_debug_blt` with
`srccount > 8` returns the statistics as they were, so `totalCount`,
`totalPixels` and every entry of both arrays are unchanged. -/
theorem oversized_record_dropped (st : gc_blt_status)
    (srccount dstWidth dstHeight : Int) (h : srccount > 8) :
    gc_debug_blt st srccount dstWidth dstHeight = some st ∧
      ∀ st1, gc_debug_blt st srccount dstWidth dstHeight = some st1 →
        st1.totalCount = st.totalCount ∧ st1.totalPixels = st.totalPixels ∧
          ∀ i, st1.srcCount i = st.srcCount i ∧
            st1.srcCountPixels i = st.srcCountPixels i := by
  have e := gc_debug_blt_of_oversized st srccount dstWidth dstHeight h
  refine ⟨e, fun st1 h1 => ?_⟩
  have : st = st1 := Option.some.inj (e.symm.trans h1)
  subst this
  exact ⟨rfl, rfl, fun _ => ⟨rfl, rfl⟩⟩

/-- Witness of `oversized_record_dropped`: nine sources. -/
theorem oversized_record_dropped_witness :
    (9 : Int) > 8 ∧
      gc_debug_blt gc_blt_status.zero 9 100 50 = some gc_blt_status.zero :=
  ⟨by decide,
    (oversized_record_dropped gc_blt_status.zero 9 100 50 (by decide)).1⟩

/-! ## Blit statistics: the reset at the end of the report -/

theorem gc_debug_reset_blt_stats_effect (st : gc_blt_status) :
    (gc_debug_reset_blt_stats st).totalCount = 0 ∧
      (gc_debug_reset_blt_stats st).totalPixels = 0 ∧
      ∀ i : Nat,
        (gc_debug_reset_blt_stats st).srcCount i =
            (if 1 ≤ i ∧ i ≤ 8 then 0 else st.srcCount i) ∧
          (gc_debug_reset_blt_stats st).srcCountPixels i =
            (if 1 ≤ i ∧ i ≤ 8 then 0 else st.srcCountPixels i) := by
  refine ⟨rfl, rfl, fun i => ?_⟩
  simp only [gc_debug_reset_blt_stats, MAX_BLT_SOURCES, reset_loop]
  by_cases h : 1 ≤ i ∧ i ≤ 8
  · obtain ⟨h1, h8⟩ := h
    interval_cases i <;> simp
  · have h' : i = 0 ∨ 9 ≤ i := by omega
    rcases h' with rfl | h9
    · simp
    · have e1 : i ≠ 1 := by omega
      have e2 : i ≠ 2 := by omega
      have e3 : i ≠ 3 := by omega
      have e4 : i ≠ 4 := by omega
      have e5 : i ≠ 5 := by omega
      have e6 : i ≠ 6 := by omega
      have e7 : i ≠ 7 := by omega
      have e8 : i ≠ 8 := by omega
      simp [e1, e2, e3, e4, e5, e6, e7, e8, h]

/-- When the report is produced, the statistics it leaves are those of
`gc_debug_reset_blt_stats`. -/
theorem gc_debug_show_blt_stats_state (st : gc_blt_status)
    (r : List BltLine × gc_blt_status)
    (h : gc_debug_show_blt_stats st = some r) :
    r.2 = gc_debug_reset_blt_stats st := by
  unfold gc_debug_show_blt_stats at h
  simp only [] at h
  split at h
  · exact Option.noConfusion h
  · split at h
    · exact Option.noConfusion h
    · have := Option.some.inj h
      rw [← this]

/-- The report on statistics whose totals are zero. -/
theorem gc_debug_show_blt_stats_of_zero (st : gc_blt_status)
    (hc : st.totalCount = 0) (hp : st.totalPixels = 0) :
    gc_debug_show_blt_stats st =
      some ([BltLine.totalBlts 0, BltLine.totalDstPixels 0],
        gc_debug_reset_blt_stats st) := by
  unfold gc_debug_show_blt_stats
  simp [hc, hp]

/-- Two reports in a row: when the first one is produced, the second one
consists of the two total lines, both with value zero. -/
theorem drain_twice_all_zero (st : gc_blt_status)
    (r : List BltLine × gc_blt_status)
    (h : gc_debug_show_blt_stats st = some r) :
    gc_debug_show_blt_stats r.2 =
      some ([BltLine.totalBlts 0, BltLine.totalDstPixels 0],
        gc_debug_reset_blt_stats r.2) := by
  rw [gc_debug_show_blt_stats_state st r h]
  exact gc_debug_show_blt_stats_of_zero _
    (gc_debug_reset_blt_stats_effect st).1
    (gc_debug_reset_blt_stats_effect st).2.1

/-- C12, evaluation: after the scenario of the spec two reports in a row end
with the all-zero report, but after the single call `record(1, 0, 5)` the
first report divides by `(int) totalPixels = 0`, so the pair of reports has
no defined result. -/
theorem second_drain_after_zero_pixel_record :
    Option.map Prod.fst
        (((run_blt gc_blt_status.zero
            [⟨2, 100, 50⟩, ⟨2, 100, 50⟩, ⟨1, 10, 10⟩]).bind
            gc_debug_show_blt_stats).bind
          (fun r => gc_debug_show_blt_stats r.2)) =
        some [BltLine.totalBlts 0, BltLine.totalDstPixels 0] ∧
      Option.isNone
        (((run_blt gc_blt_status.zero [⟨1, 0, 5⟩]).bind
            gc_debug_show_blt_stats).bind
          (fun r => gc_debug_show_blt_stats r.2)) = true := by
  decide


theorem gc_debug_blt_keeps_bucket_zero (st : gc_blt_status) (s w h : Int)
    (h1 : 1 ≤ s) :
    ∃ st1, gc_debug_blt st s w h = some st1 ∧
      st1.srcCount 0 = st.srcCount 0 ∧
      st1.srcCountPixels 0 = st.srcCountPixels 0 := by
  by_cases h8 : s > 8
  · exact ⟨st, gc_debug_blt_of_oversized st s w h h8, rfl, rfl⟩
  · refine ⟨_, gc_debug_blt_accepts st s w h (by omega) (by omega), ?_, ?_⟩
    · have hk : (0 : Nat) ≠ s.toNat := by omega
      simp only [if_neg hk]
    · have hk : (0 : Nat) ≠ s.toNat := by omega
      simp only [if_neg hk]

theorem run_blt_keeps_bucket_zero :
    ∀ (cs : List BltCall) (st : gc_blt_status),
      (∀ c ∈ cs, 1 ≤ c.srccount) →
      ∃ st1, run_blt st cs = some st1 ∧
        st1.srcCount 0 = st.srcCount 0 ∧
        st1.srcCountPixels 0 = st.srcCountPixels 0 := by
  intro cs
  induction cs with
  | nil => intro st _; exact ⟨st, rfl, rfl, rfl⟩
  | cons c cs ih =>
    intro st hs
    obtain ⟨st1, e1, a1, b1⟩ :=
      gc_debug_blt_keeps_bucket_zero st c.srccount c.dstWidth c.dstHeight
        (hs c (List.mem_cons_self _ _))
    obtain ⟨st2, e2, a2, b2⟩ :=
      ih st1 (fun d hd => hs d (List.mem_cons_of_mem _ hd))
    exact ⟨st2, by simp only [run_blt, e1, e2], a2.trans a1, b2.trans b1⟩

/-- C13, evaluation: after `record(0, 2, 3)`, which `gc_debug_blt` accepts,
the report is produced and leaves `srcCount[0] = 1` and
`srcCountPixels[0] = 6`: the reset loop runs over the indices 1..8 only. -/
theorem drain_keeps_bucket_zero :
    Option.map (fun r => (r.2.srcCount 0, r.2.srcCountPixels 0))
        ((run_blt gc_blt_status.zero [⟨0, 2, 3⟩]).bind
          gc_debug_show_blt_stats) = some (1, 6) := by
  decide

/-- What a produced report leaves: the totals and the entries 1..8 of both
arrays are zero, the entries of index 0 are as they were. -/
theorem gc_debug_show_blt_stats_resets (t : gc_blt_status)
    (r : List BltLine × gc_blt_status)
    (hr : gc_debug_show_blt_stats t = some r) :
    r.2.totalCount = 0 ∧ r.2.totalPixels = 0 ∧
      (∀ i, 1 ≤ i → i ≤ 8 →
        r.2.srcCount i = 0 ∧ r.2.srcCountPixels i = 0) ∧
      r.2.srcCount 0 = t.srcCount 0 ∧
      r.2.srcCountPixels 0 = t.srcCountPixels 0 := by
  rw [gc_debug_show_blt_stats_state t r hr]
  obtain ⟨hc, hp, hall⟩ := gc_debug_reset_blt_stats_effect t
  refine ⟨hc, hp, fun i h1 h8 => ?_, ?_, ?_⟩
  · have := hall i
    simpa [h1, h8] using this
  · have := (hall 0).1
    simpa using this
  · have := (hall 0).2
    simpa using this

/-! ## Endpoints of the status cache -/

/-- C14 (a status read refreshes only when powered on): reading the `status`
endpoint leaves the state that the capture
`gc_debug_cache_gpu_status_internal(GC_DEBUG_USER_REQUEST, 0)` leaves when
the power state is on, and leaves the state as it was (no register read,
both snapshots unchanged) when the power state is off, low or unknown. -/
theorem status_read_refresh (A : RegAddr) (power : gcpower) (s : GcState) :
    (power = gcpower.GCPWR_ON →
        (gc_debug_open_gpu_status A power s).2 =
          gc_debug_cache_gpu_status_internal A s
            gc_debug_when.GC_DEBUG_USER_REQUEST 0) ∧
      (power ≠ gcpower.GCPWR_ON →
        (gc_debug_open_gpu_status A power s).2 = s ∧
          (gc_debug_open_gpu_status A power s).2.hw.log = s.hw.log ∧
          (gc_debug_open_gpu_status A power s).2.g_gcGpuStatus =
            s.g_gcGpuStatus ∧
          (gc_debug_open_gpu_status A power s).2.g_gcGpuStatusLastError =
            s.g_gcGpuStatusLastError) := by
  have key : (gc_debug_open_gpu_status A power s).2 =
      if power == gcpower.GCPWR_ON then
        gc_debug_cache_gpu_status_internal A s
          gc_debug_when.GC_DEBUG_USER_REQUEST 0
      else s :=
    gc_debug_show_gpu_status_state A power s StatusRef.current
  constructor
  · intro hp
    rw [key]
    simp [hp]
  · intro hp
    have e : (gc_debug_open_gpu_status A power s).2 = s := by
      rw [key]
      simp [hp]
    rw [e]
    exact ⟨rfl, rfl, rfl, rfl⟩

/-- Witness of `status_read_refresh`: in the initial state a read with the
power on leaves the state of a user-request capture, and a read with the
power low reads no register. -/
theorem status_read_refresh_witness :
    (gc_debug_open_gpu_status RegAddr.sample gcpower.GCPWR_ON
          (GcState.init Hw.sample)).2 =
        gc_debug_cache_gpu_status_internal RegAddr.sample
          (GcState.init Hw.sample) gc_debug_when.GC_DEBUG_USER_REQUEST 0 ∧
      (gc_debug_open_gpu_status RegAddr.sample gcpower.GCPWR_LOW
          (GcState.init Hw.sample)).2.hw.log = (GcState.init Hw.sample).hw.log :=
  ⟨(status_read_refresh RegAddr.sample gcpower.GCPWR_ON
      (GcState.init Hw.sample)).1 rfl,
    ((status_read_refresh RegAddr.sample gcpower.GCPWR_LOW
      (GcState.init Hw.sample)).2 (by decide)).2.1⟩

theorem internal_current_of_error (A : RegAddr) (s : GcState)
    (w : gc_debug_when) (a : Nat) (h : haveError w a = true) :
    (gc_debug_cache_gpu_status_internal A s w a).g_gcGpuStatus.when = w ∧
      (gc_debug_cache_gpu_status_internal A s w a).g_gcGpuStatus.irq_acknowledge
        = a := by
  unfold gc_debug_cache_gpu_status_internal
  simp only [h]
  by_cases hm : MMU_ERROR a = true
  · simp [hm]
  · simp [hm]

theorem latch_inv_internal (A : RegAddr) (s : GcState) (w : gc_debug_when)
    (a : Nat) (h : latch_inv s) :
    latch_inv (gc_debug_cache_gpu_status_internal A s w a) := by
  by_cases he : haveError w a = true
  · intro _
    rw [internal_latch_of_error A s w a he]
    have hw : w = gc_debug_when.GC_DEBUG_DRIVER_IRQ ∧
        a &&& 0xC0000000 ≠ 0 := by
      simpa [haveError] using he
    obtain ⟨e1, e2⟩ := internal_current_of_error A s w a he
    rw [e1, e2]
    exact hw
  · have he' : haveError w a = false := by simpa using he
    unfold latch_inv
    rw [internal_latch_of_no_error A s w a he']
    exact h

theorem latch_inv_step (A : RegAddr) (s : GcState) (e : GcEvent)
    (h : latch_inv s) : latch_inv (gc_event_step A s e) := by
  cases e with
  | capture w a => exact latch_inv_internal A s w a h
  | irq a => exact latch_inv_internal A s _ a h
  | set_every_irq v => exact h
  | read_status p =>
    show latch_inv (gc_debug_open_gpu_status A p s).2
    rw [show (gc_debug_open_gpu_status A p s).2 = _ from
      gc_debug_show_gpu_status_state A p s StatusRef.current]
    split
    · exact latch_inv_internal A s _ _ h
    · exact h
  | read_last_error p =>
    show latch_inv (gc_debug_open_gpu_last_error A p s).2
    rw [show (gc_debug_open_gpu_last_error A p s).2 = _ from
      gc_debug_show_gpu_status_state A p s StatusRef.lastError]
    split
    · exact latch_inv_internal A s _ _ h
    · exact h
  | read_id => exact h
  | poweroff_cache =>
    show latch_inv (gc_debug_cache_gpu_id A s)
    unfold gc_debug_cache_gpu_id
    split
    · exact h
    · exact h

theorem latch_inv_run (A : RegAddr) :
    ∀ (es : List GcEvent) (s : GcState), latch_inv s →
      latch_inv (gc_event_run A s es) := by
  intro es
  induction es with
  | nil => intro s h; exact h
  | cons e es ih => intro s h; exact ih _ (latch_inv_step A s e h)

/-- C18 (latched snapshots are error snapshots): in every state reached
from the initial state by captures, writes of the flag and reads of the
endpoints, a valid error latch has the trigger `GC_DEBUG_DRIVER_IRQ` and an
acknowledge word with bit 31 or bit 30 set. -/
theorem latch_holds_error_snapshot (A : RegAddr) (hw : Hw)
    (es : List GcEvent)
    (h : (gc_event_run A (GcState.init hw) es).g_gcGpuStatusLastError.valid =
      true) :
    (gc_event_run A (GcState.init hw) es).g_gcGpuStatusLastError.when =
        gc_debug_when.GC_DEBUG_DRIVER_IRQ ∧
      (gc_event_run A (GcState.init hw) es).g_gcGpuStatusLastError.irq_acknowledge
        &&& 0xC0000000 ≠ 0 :=
  latch_inv_run A es (GcState.init hw)
    (fun hv => Bool.noConfusion (hv : false = true)) h

/-- Witness of `latch_holds_error_snapshot`: the flag is switched on, an
interrupt without error and one with an MMU fault are taken, and both status
endpoints are read with the power on. -/
theorem latch_holds_error_snapshot_witness :
    (gc_event_run RegAddr.sample (GcState.init Hw.sample)
        [GcEvent.set_every_irq 1, GcEvent.irq 1, GcEvent.irq 0x40000000,
         GcEvent.read_status gcpower.GCPWR_ON,
         GcEvent.read_last_error
           gcpower.GCPWR_ON]).g_gcGpuStatusLastError.valid = true ∧
      (gc_event_run RegAddr.sample (GcState.init Hw.sample)
        [GcEvent.set_every_irq 1, GcEvent.irq 1, GcEvent.irq 0x40000000,
         GcEvent.read_status gcpower.GCPWR_ON,
         GcEvent.read_last_error
           gcpower.GCPWR_ON]).g_gcGpuStatusLastError.when =
        gc_debug_when.GC_DEBUG_DRIVER_IRQ :=
  ⟨by decide,
    (latch_holds_error_snapshot RegAddr.sample Hw.sample
      [GcEvent.set_every_irq 1, GcEvent.irq 1, GcEvent.irq 0x40000000,
       GcEvent.read_status gcpower.GCPWR_ON,
       GcEvent.read_last_error gcpower.GCPWR_ON] (by decide)).1⟩


/-- The latch after a capture with an error carries the name of the current
snapshot: the copy is of the whole record. -/
theorem internal_latch_name_of_error (A : RegAddr) (s : GcState)
    (w : gc_debug_when) (a : Nat) (h : haveError w a = true) :
    (gc_debug_cache_gpu_status_internal A s w a).g_gcGpuStatusLastError.name =
      s.g_gcGpuStatus.name := by
  unfold gc_debug_cache_gpu_status_internal
  simp only [h]
  by_cases hm : MMU_ERROR a = true
  · simp [hm]
  · simp [hm]

/-- C19, evaluation: the latch is declared with the name
`GPU last error status`, but after one interrupt with bit 31 set its name is
`GPU status`, and the report read from `last_error` is labelled so. -/
theorem latch_label_overwritten :
    (GcState.init Hw.sample).g_gcGpuStatusLastError.name =
        "GPU last error status" ∧
      (run_capture RegAddr.sample (GcState.init Hw.sample)
        [⟨0, gc_debug_when.GC_DEBUG_DRIVER_IRQ,
          0x80000000⟩]).g_gcGpuStatusLastError.name = "GPU status" ∧
      (gc_debug_open_gpu_last_error RegAddr.sample gcpower.GCPWR_OFF
        (run_capture RegAddr.sample (GcState.init Hw.sample)
          [⟨0, gc_debug_when.GC_DEBUG_DRIVER_IRQ, 0x80000000⟩])).1.take 2 =
        [StatusLine.power "GCPWR_OFF",
         StatusLine.cachedAt "GPU status" "GC_DEBUG_DRIVER_IRQ"] := by
  decide

/-! ## Chip identity report -/

/-- The report on a valid identity: five lines, none for
`chipMinorFeatures`. -/
theorem gc_debug_show_gpu_id_of_valid (s : GcState)
    (h : s.g_gcGpuId.valid = true) :
    gc_debug_show_gpu_id s =
      [IdLine.field "model" s.g_gcGpuId.chipModel,
       IdLine.field "revision" s.g_gcGpuId.chipRevision,
       IdLine.field "date" s.g_gcGpuId.chipDate,
       IdLine.field "time" s.g_gcGpuId.chipTime,
       IdLine.field "chipFeatures" s.g_gcGpuId.chipFeatures] := by
  simp [gc_debug_show_gpu_id, h]

/-- C15, evaluation: for the identity captured from the sample registers,
whose `chipMinorFeatures` is 58, the report has the five lines of model,
revision, date, time and features and no line for the minor features; for
the invalid initial identity it is the cache-not-valid message alone. -/
theorem id_report_omits_minor_features :
    (gc_debug_cache_gpu_id RegAddr.sample
        (GcState.init Hw.sample)).g_gcGpuId.chipMinorFeatures = 58 ∧
      gc_debug_show_gpu_id
          (gc_debug_cache_gpu_id RegAddr.sample (GcState.init Hw.sample)) =
        [IdLine.field "model" 33, IdLine.field "revision" 38,
         IdLine.field "date" 43, IdLine.field "time" 48,
         IdLine.field "chipFeatures" 33] ∧
      gc_debug_show_gpu_id (GcState.init Hw.sample) = [IdLine.notValid] := by
  decide

/-! ## Blit statistics: what one record adds -/

theorem wrap32_of_range (x : Int) (h1 : -2147483648 ≤ x)
    (h2 : x < 2147483648) : wrap32 x = x := by
  unfold wrap32
  omega

theorem wrap64_of_range (x : Int) (h1 : -9223372036854775808 ≤ x)
    (h2 : x < 9223372036854775808) : wrap64 x = x := by
  unfold wrap64
  omega

/-- C17, counterexample: `record(1, 65536, 32768)` on the all-zero
statistics leaves `totalPixels = -2^31` and `srcCountPixels[1] = -2^31`,
while the product of width and height is `2^31`: the product is formed in a
32-bit `int`. -/
theorem record_truncates_product :
    Option.map (fun st => (st.totalPixels, st.srcCountPixels 1))
        (gc_debug_blt gc_blt_status.zero 1 65536 32768) =
        some (-2147483648, -2147483648) ∧
      (65536 : Int) * 32768 = 2147483648 := by
  decide

/-- C17, amended: for `1 <= s <= 8`, `gc_debug_blt` adds to `totalPixels`
and to `srcCountPixels[s]` the product of width and height reduced to a
signed 32-bit `int`, each sum wrapping at 64 bits, adds 1 to `totalCount`
and to `srcCount[s]`, wrapping at 32 bits, and leaves every other bucket
unchanged; the amounts added are exactly the product and exactly 1 whenever
the product fits a signed 32-bit `int` and the new value fits the counter. -/
theorem record_effect (st : gc_blt_status) (s w h : Int) (h1 : 1 ≤ s)
    (h8 : s ≤ 8) :
    ∃ st1, gc_debug_blt st s w h = some st1 ∧
      st1.totalPixels = wrap64 (st.totalPixels + wrap32 (w * h)) ∧
      st1.srcCountPixels s.toNat =
        wrap64 (st.srcCountPixels s.toNat + wrap32 (w * h)) ∧
      st1.totalCount = wrap32 (st.totalCount + 1) ∧
      st1.srcCount s.toNat = wrap32 (st.srcCount s.toNat + 1) ∧
      (∀ j, j ≠ s.toNat →
        st1.srcCount j = st.srcCount j ∧
          st1.srcCountPixels j = st.srcCountPixels j) ∧
      (-2147483648 ≤ w * h → w * h < 2147483648 →
        (-9223372036854775808 ≤ st.totalPixels + w * h →
          st.totalPixels + w * h < 9223372036854775808 →
          st1.totalPixels = st.totalPixels + w * h) ∧
        (-9223372036854775808 ≤ st.srcCountPixels s.toNat + w * h →
          st.srcCountPixels s.toNat + w * h < 9223372036854775808 →
          st1.srcCountPixels s.toNat = st.srcCountPixels s.toNat + w * h)) ∧
      (-2147483648 ≤ st.totalCount + 1 → st.totalCount + 1 < 2147483648 →
        st1.totalCount = st.totalCount + 1) ∧
      (-2147483648 ≤ st.srcCount s.toNat + 1 →
        st.srcCount s.toNat + 1 < 2147483648 →
        st1.srcCount s.toNat = st.srcCount s.toNat + 1) := by
  refine ⟨_, gc_debug_blt_accepts st s w h (by omega) h8, rfl, ?_, rfl, ?_,
    ?_, ?_, ?_, ?_⟩
  · simp only [if_true]
  · simp only [if_true]
  · intro j hj
    simp only [if_neg hj, and_self]
  · intro p1 p2
    rw [wrap32_of_range _ p1 p2]
    refine ⟨fun a b => wrap64_of_range _ a b, fun a b => ?_⟩
    simp only [if_true]
    exact wrap64_of_range _ a b
  · intro a b
    exact wrap32_of_range _ a b
  · intro a b
    simp only [if_true]
    exact wrap32_of_range _ a b

/-- Witness of `record_effect`: `record(2, 100, 50)` on the all-zero
statistics adds 5000 pixels and one blit. -/
theorem record_effect_witness :
    ((1 : Int) ≤ 2 ∧ (2 : Int) ≤ 8) ∧
      ∃ st1, gc_debug_blt gc_blt_status.zero 2 100 50 = some st1 ∧
        st1.totalPixels = 5000 ∧ st1.srcCountPixels 2 = 5000 ∧
        st1.totalCount = 1 ∧ st1.srcCount 2 = 1 := by
  obtain ⟨st1, e, p1, p2, c1, c2, _⟩ :=
    record_effect gc_blt_status.zero 2 100 50 (by decide) (by decide)
  exact ⟨by decide, st1, e, p1.trans (by decide), p2.trans (by decide),
    c1.trans (by decide), c2.trans (by decide)⟩

/-- C20, evaluation: `gc_debug_blt` with `srccount = -1` passes the guard
and indexes the arrays before their first entry (no defined result), and
with `srccount = 0` it is accepted and counts into the entries of index 0. -/
theorem record_indexes_outside_valid_buckets :
    Option.isNone (gc_debug_blt gc_blt_status.zero (-1) 2 3) = true ∧
      Option.map
          (fun st => (st.totalCount, st.srcCount 0, st.srcCountPixels 0))
          (gc_debug_blt gc_blt_status.zero 0 2 3) = some (1, 1, 6) := by
  decide

/-! ## Blit statistics: the pixel percentages -/

/-- C16, counterexample: after `record(1, -1, 1)` and `record(2, 2, 2)` the
totals are 2 blits and 3 pixels, and the report shows the bucket of one
source with pixel sum -1 at -33%, while the floor of `-100 / 3` is -34: the
division truncates toward zero. -/
theorem pixel_percentage_truncates_toward_zero :
    Option.map Prod.fst
        ((run_blt gc_blt_status.zero [⟨1, -1, 1⟩, ⟨2, 2, 2⟩]).bind
          gc_debug_show_blt_stats) =
      some [BltLine.totalBlts 2,
        BltLine.srcCount 1 1 33, BltLine.srcCount 2 1 33,
        BltLine.srcCount 3 0 0, BltLine.srcCount 4 0 0,
        BltLine.srcCount 5 0 0, BltLine.srcCount 6 0 0,
        BltLine.srcCount 7 0 0, BltLine.srcCount 8 0 0,
        BltLine.totalDstPixels 3,
        BltLine.srcPixels 1 (-1) (-33), BltLine.srcPixels 2 4 133,
        BltLine.srcPixels 3 0 0, BltLine.srcPixels 4 0 0,
        BltLine.srcPixels 5 0 0, BltLine.srcPixels 6 0 0,
        BltLine.srcPixels 7 0 0, BltLine.srcPixels 8 0 0] ∧
      (-1 * 100 : Int) / 3 = -34 := by
  decide

/-- C16, amended: on statistics with `totalPixels` nonzero on which every
division of the report is defined (no zero divisor and no least value
divided by -1, in the count loop and in the pixel loop), the report is
produced and holds, for each bucket `i` in 1..8, the line of the pixel sum
`srcCountPixels[i]` with the percentage `srcCountPixels[i] * 100` (wrapped
to 64 bits) divided by `totalPixels`, truncating toward zero; that
percentage is the floor of `srcCountPixels[i] * 100 / totalPixels` whenever
the pixel sum is non-negative, a hundred times it is below `2^63`, and
`totalPixels` is positive. -/
theorem pixel_percentage (st : gc_blt_status) (hp : st.totalPixels ≠ 0)
    (hdef : drain_defined st) :
    ∃ r, gc_debug_show_blt_stats st = some r ∧
      ∀ i, 1 ≤ i → i ≤ 8 →
        BltLine.srcPixels i (st.srcCountPixels i)
            (Int.tdiv (wrap64 (st.srcCountPixels i * 100))
              st.totalPixels) ∈ r.1 ∧
          (0 ≤ st.srcCountPixels i →
            st.srcCountPixels i * 100 < 9223372036854775808 →
            0 < st.totalPixels →
            Int.tdiv (wrap64 (st.srcCountPixels i * 100)) st.totalPixels =
              st.srcCountPixels i * 100 / st.totalPixels) := by
  refine ⟨_, gc_debug_show_blt_stats_of_defined st hdef, ?_⟩
  intro i h1 h8
  constructor
  · simp only [hp, ne_eq, not_false_eq_true, if_true, pixel_lines,
      List.mem_append, List.mem_map, List.mem_range'_1]
    right
    exact ⟨i, ⟨h1, by simp only [MAX_BLT_SOURCES]; omega⟩, rfl⟩
  · intro hc hlt ht
    have ha : wrap64 (st.srcCountPixels i * 100) =
        st.srcCountPixels i * 100 :=
      wrap64_of_range _ (by omega) hlt
    rw [ha, Int.tdiv_eq_ediv (by omega) (by omega)]

/-- Witness of `pixel_percentage`: after the scenario of the spec every
division of the report is defined and the report shows the bucket of two
sources with 10000 pixels at 99%. -/
theorem pixel_percentage_witness :
    ((run_blt gc_blt_status.zero
          [⟨2, 100, 50⟩, ⟨2, 100, 50⟩, ⟨1, 10, 10⟩]).getD
        gc_blt_status.zero).totalPixels ≠ 0 ∧
      drain_defined
        ((run_blt gc_blt_status.zero
          [⟨2, 100, 50⟩, ⟨2, 100, 50⟩, ⟨1, 10, 10⟩]).getD
          gc_blt_status.zero) ∧
      ∃ r, gc_debug_show_blt_stats
          ((run_blt gc_blt_status.zero
            [⟨2, 100, 50⟩, ⟨2, 100, 50⟩, ⟨1, 10, 10⟩]).getD
            gc_blt_status.zero) = some r ∧
        BltLine.srcPixels 2 10000 99 ∈ r.1 := by
  have hd : drain_defined
      ((run_blt gc_blt_status.zero
        [⟨2, 100, 50⟩, ⟨2, 100, 50⟩, ⟨1, 10, 10⟩]).getD
        gc_blt_status.zero) := by
    unfold drain_defined count_division_defined pixel_division_defined
    decide
  obtain ⟨r, hr, hall⟩ :=
    pixel_percentage
      ((run_blt gc_blt_status.zero
        [⟨2, 100, 50⟩, ⟨2, 100, 50⟩, ⟨1, 10, 10⟩]).getD gc_blt_status.zero)
      (by decide) hd
  exact ⟨by decide, hd, r, hr, (hall 2 (by decide) (by decide)).1⟩

end GcDebug
